import Mathlib

/-!
Verification of the demographic simulation engine of the
reproductive-age-explorer repository.

The engine (mortality model, fertility model, initializer, per-step
transition, metrics) is embedded shallowly over the real numbers: the
JavaScript floating-point arithmetic is modelled by exact real
arithmetic, so every "within floating tolerance" statement is settled
by an exact equality or a concrete bound.
-/

namespace ReproAge

open Finset

/-- Number of one-year age cohorts (`numAges` in the source). -/
def numAges : ℕ := 100

/-- Male excess multiplier on the infant Siler component. -/
def MALE_INFANT_MULTIPLIER : ℝ := 1.20

/-- Male excess multiplier on the background (Makeham) component. -/
def MALE_BACKGROUND_MULTIPLIER : ℝ := 1.50

/-- Male excess multiplier on the senescent (Gompertz) component. -/
def MALE_SENESCENT_MULTIPLIER : ℝ := 1.15

/-- Unclamped Siler hazard, before the 0.6/year cap: the three
components of `getMortalityRate` in the source, already combined with
the sex-specific multipliers. -/
noncomputable def mortalityRaw (age : ℕ) (e0 : ℝ) (isMale : Bool) : ℝ :=
  let alpha1 := 0.015 * Real.exp ((75 - e0) * 0.055)
  let beta1 : ℝ := 0.7
  let infantMortality := alpha1 * Real.exp (-(beta1 * (age : ℝ)))
  let alpha2 := 0.0004 * Real.exp ((75 - e0) * 0.015)
  let beta3 : ℝ := 0.088
  let alpha3 := 0.00002 * Real.exp ((80 - e0) * 0.055)
  let senescentMortality := alpha3 * Real.exp (beta3 * (age : ℝ))
  if isMale then
    infantMortality * MALE_INFANT_MULTIPLIER +
      alpha2 * MALE_BACKGROUND_MULTIPLIER +
      senescentMortality * MALE_SENESCENT_MULTIPLIER
  else
    infantMortality + alpha2 + senescentMortality

/-- `getMortalityRate(age, e0, isMale)` from the source: Siler hazard
capped at 0.6 per year. -/
noncomputable def getMortalityRate (age : ℕ) (e0 : ℝ) (isMale : Bool) : ℝ :=
  min (mortalityRaw age e0 isMale) 0.6

/-- `getSurvivalCurve(e0, isMale)` from the source:
`l(0) = 1`, `l(a) = l(a-1) * exp(-mu(a-1))`. -/
noncomputable def getSurvivalCurve (e0 : ℝ) (isMale : Bool) : ℕ → ℝ
  | 0 => 1
  | a + 1 =>
      getSurvivalCurve e0 isMale a * Real.exp (-(getMortalityRate a e0 isMale))

/-- `calculateLifeExpectancy(survivalCurve)` from the source: the sum of
the survival-curve values over all `numAges` ages. -/
noncomputable def calculateLifeExpectancy (survivalCurve : ℕ → ℝ) : ℝ :=
  ∑ a ∈ Finset.range numAges, survivalCurve a

lemma mortalityRaw_pos (age : ℕ) (e0 : ℝ) (m : Bool) :
    0 < mortalityRaw age e0 m := by
  unfold mortalityRaw
  have h1 := Real.exp_pos ((75 - e0) * 0.055)
  have h2 := Real.exp_pos ((75 - e0) * 0.015)
  have h3 := Real.exp_pos ((80 - e0) * 0.055)
  have h4 := Real.exp_pos (-(0.7 * (age : ℝ)))
  have h5 := Real.exp_pos (0.088 * (age : ℝ))
  cases m <;> simp only [Bool.false_eq_true, if_true, if_false,
    MALE_INFANT_MULTIPLIER, MALE_BACKGROUND_MULTIPLIER,
    MALE_SENESCENT_MULTIPLIER] <;> positivity

lemma getMortalityRate_pos (age : ℕ) (e0 : ℝ) (m : Bool) :
    0 < getMortalityRate age e0 m := by
  unfold getMortalityRate
  exact lt_min (mortalityRaw_pos age e0 m) (by norm_num)

lemma getMortalityRate_le (age : ℕ) (e0 : ℝ) (m : Bool) :
    getMortalityRate age e0 m ≤ 0.6 :=
  min_le_right _ _

lemma exp_neg_mortality_le_one (age : ℕ) (e0 : ℝ) (m : Bool) :
    Real.exp (-(getMortalityRate age e0 m)) ≤ 1 := by
  rw [show (1 : ℝ) = Real.exp 0 by rw [Real.exp_zero]]
  exact Real.exp_le_exp.mpr (by linarith [getMortalityRate_pos age e0 m])

lemma getSurvivalCurve_pos (e0 : ℝ) (m : Bool) (a : ℕ) :
    0 < getSurvivalCurve e0 m a := by
  induction a with
  | zero => simp [getSurvivalCurve]
  | succ n ih =>
      simpa [getSurvivalCurve] using
        mul_pos ih (Real.exp_pos (-(getMortalityRate n e0 m)))

lemma getSurvivalCurve_succ_le (e0 : ℝ) (m : Bool) (a : ℕ) :
    getSurvivalCurve e0 m (a + 1) ≤ getSurvivalCurve e0 m a := by
  have h := getSurvivalCurve_pos e0 m a
  calc getSurvivalCurve e0 m (a + 1)
      = getSurvivalCurve e0 m a * Real.exp (-(getMortalityRate a e0 m)) := rfl
    _ ≤ getSurvivalCurve e0 m a * 1 :=
        mul_le_mul_of_nonneg_left (exp_neg_mortality_le_one a e0 m) h.le
    _ = getSurvivalCurve e0 m a := mul_one _

lemma getSurvivalCurve_antitone (e0 : ℝ) (m : Bool) {a b : ℕ} (h : a ≤ b) :
    getSurvivalCurve e0 m b ≤ getSurvivalCurve e0 m a := by
  induction b with
  | zero => simp_all
  | succ n ih =>
      rcases Nat.lt_or_ge a (n + 1) with hlt | hge
      · exact (getSurvivalCurve_succ_le e0 m n).trans (ih (Nat.lt_succ_iff.mp hlt))
      · have : a = n + 1 := le_antisymm h hge
        simp [this]

lemma getSurvivalCurve_le_one (e0 : ℝ) (m : Bool) (a : ℕ) :
    getSurvivalCurve e0 m a ≤ 1 := by
  have := getSurvivalCurve_antitone e0 m (Nat.zero_le a)
  simpa [getSurvivalCurve] using this

/-- C4: for any life-expectancy target in [30, 95] and either sex, the
survival curve has `l(0) = 1` exactly, obeys the forward recursion
`l(a) = l(a-1) * exp(-mu(a-1))` on ages `1..numAges-1`, is monotonically
nonincreasing, and takes values in `(0, 1]`. -/
theorem survival_curve_spec (e0 : ℝ) (m : Bool) (h1 : 30 ≤ e0) (h2 : e0 ≤ 95) :
    getSurvivalCurve e0 m 0 = 1 ∧
    (∀ a, 1 ≤ a → a < numAges →
      getSurvivalCurve e0 m a =
        getSurvivalCurve e0 m (a - 1) *
          Real.exp (-(getMortalityRate (a - 1) e0 m))) ∧
    (∀ a b, a ≤ b → getSurvivalCurve e0 m b ≤ getSurvivalCurve e0 m a) ∧
    (∀ a, a < numAges →
      0 < getSurvivalCurve e0 m a ∧ getSurvivalCurve e0 m a ≤ 1) := by
  refine ⟨rfl, ?_, ?_, ?_⟩
  · intro a ha _
    cases a with
    | zero => omega
    | succ n => simp [getSurvivalCurve]
  · intro a b hab
    exact getSurvivalCurve_antitone e0 m hab
  · intro a _
    exact ⟨getSurvivalCurve_pos e0 m a, getSurvivalCurve_le_one e0 m a⟩

theorem survival_curve_spec_witness :
    (30 : ℝ) ≤ 75 ∧ (75 : ℝ) ≤ 95 ∧
    (getSurvivalCurve 75 false 0 = 1 ∧
    (∀ a, 1 ≤ a → a < numAges →
      getSurvivalCurve 75 false a =
        getSurvivalCurve 75 false (a - 1) *
          Real.exp (-(getMortalityRate (a - 1) 75 false))) ∧
    (∀ a b, a ≤ b →
      getSurvivalCurve 75 false b ≤ getSurvivalCurve 75 false a) ∧
    (∀ a, a < numAges →
      0 < getSurvivalCurve 75 false a ∧ getSurvivalCurve 75 false a ≤ 1)) :=
  ⟨by norm_num, by norm_num,
    survival_curve_spec 75 false (by norm_num) (by norm_num)⟩

lemma mortalityRaw_female_le_male (age : ℕ) (e0 : ℝ) :
    mortalityRaw age e0 false ≤ mortalityRaw age e0 true := by
  unfold mortalityRaw
  simp only [Bool.false_eq_true, if_true, if_false,
    MALE_INFANT_MULTIPLIER, MALE_BACKGROUND_MULTIPLIER,
    MALE_SENESCENT_MULTIPLIER]
  have h1 := (Real.exp_pos ((75 - e0) * 0.055)).le
  have h2 := (Real.exp_pos ((75 - e0) * 0.015)).le
  have h3 := (Real.exp_pos ((80 - e0) * 0.055)).le
  have h4 := (Real.exp_pos (-(0.7 * (age : ℝ)))).le
  have h5 := (Real.exp_pos (0.088 * (age : ℝ))).le
  nlinarith [mul_nonneg (mul_nonneg h1 h4) (by norm_num : (0:ℝ) ≤ 0.015),
    mul_nonneg h2 (by norm_num : (0:ℝ) ≤ 0.0004),
    mul_nonneg (mul_nonneg h3 h5) (by norm_num : (0:ℝ) ≤ 0.00002)]

lemma getMortalityRate_female_le_male (age : ℕ) (e0 : ℝ) :
    getMortalityRate age e0 false ≤ getMortalityRate age e0 true :=
  min_le_min (mortalityRaw_female_le_male age e0) le_rfl

lemma getSurvivalCurve_male_le_female (e0 : ℝ) (a : ℕ) :
    getSurvivalCurve e0 true a ≤ getSurvivalCurve e0 false a := by
  induction a with
  | zero => exact le_rfl
  | succ n ih =>
      have hm : Real.exp (-(getMortalityRate n e0 true)) ≤
          Real.exp (-(getMortalityRate n e0 false)) :=
        Real.exp_le_exp.mpr (neg_le_neg (getMortalityRate_female_le_male n e0))
      calc getSurvivalCurve e0 true (n + 1)
          = getSurvivalCurve e0 true n *
              Real.exp (-(getMortalityRate n e0 true)) := rfl
        _ ≤ getSurvivalCurve e0 false n *
              Real.exp (-(getMortalityRate n e0 false)) :=
            mul_le_mul ih hm (Real.exp_pos _).le
              (getSurvivalCurve_pos e0 false n).le
        _ = getSurvivalCurve e0 false (n + 1) := rfl

/-- C9: for every age and every life-expectancy target, the male hazard
dominates the female hazard (the 0.6 clamp preserves the ordering), the
male survival curve is pointwise at most the female one, and the
realized male life expectancy never exceeds the realized female one. -/
theorem male_female_ordering :
    ∀ (e0 : ℝ) (a : ℕ),
      getMortalityRate a e0 false ≤ getMortalityRate a e0 true ∧
      getSurvivalCurve e0 true a ≤ getSurvivalCurve e0 false a ∧
      calculateLifeExpectancy (getSurvivalCurve e0 true) ≤
        calculateLifeExpectancy (getSurvivalCurve e0 false) := by
  intro e0 a
  refine ⟨getMortalityRate_female_le_male a e0,
    getSurvivalCurve_male_le_female e0 a, ?_⟩
  unfold calculateLifeExpectancy
  exact Finset.sum_le_sum fun i _ => getSurvivalCurve_male_le_female e0 i

lemma exp_three_lt : Real.exp 3 < 20.1 := by
  have h1 := Real.exp_one_lt_d9
  have h0 := Real.exp_pos 1
  have h3 : Real.exp 3 = Real.exp 1 * Real.exp 1 * Real.exp 1 := by
    rw [← Real.exp_add, ← Real.exp_add]; norm_num
  rw [h3]
  nlinarith

lemma mortalityRaw_antitone (age : ℕ) (m : Bool) {e0 e0' : ℝ} (h : e0 ≤ e0') :
    mortalityRaw age e0' m ≤ mortalityRaw age e0 m := by
  unfold mortalityRaw
  have g1 : Real.exp ((75 - e0') * 0.055) ≤ Real.exp ((75 - e0) * 0.055) :=
    Real.exp_le_exp.mpr (by nlinarith)
  have g2 : Real.exp ((75 - e0') * 0.015) ≤ Real.exp ((75 - e0) * 0.015) :=
    Real.exp_le_exp.mpr (by nlinarith)
  have g3 : Real.exp ((80 - e0') * 0.055) ≤ Real.exp ((80 - e0) * 0.055) :=
    Real.exp_le_exp.mpr (by nlinarith)
  have h4 := (Real.exp_pos (-(0.7 * (age : ℝ)))).le
  have h5 := (Real.exp_pos (0.088 * (age : ℝ))).le
  cases m <;>
    simp only [Bool.false_eq_true, if_true, if_false,
      MALE_INFANT_MULTIPLIER, MALE_BACKGROUND_MULTIPLIER,
      MALE_SENESCENT_MULTIPLIER] <;>
    nlinarith

lemma mortalityRaw_zero_strict_anti (m : Bool) {e0 e0' : ℝ} (h : e0 < e0') :
    mortalityRaw 0 e0' m < mortalityRaw 0 e0 m := by
  unfold mortalityRaw
  have g1 : Real.exp ((75 - e0') * 0.055) < Real.exp ((75 - e0) * 0.055) :=
    Real.exp_lt_exp.mpr (by nlinarith)
  have g2 : Real.exp ((75 - e0') * 0.015) < Real.exp ((75 - e0) * 0.015) :=
    Real.exp_lt_exp.mpr (by nlinarith)
  have g3 : Real.exp ((80 - e0') * 0.055) < Real.exp ((80 - e0) * 0.055) :=
    Real.exp_lt_exp.mpr (by nlinarith)
  cases m <;>
    simp only [Bool.false_eq_true, if_true, if_false,
      MALE_INFANT_MULTIPLIER, MALE_BACKGROUND_MULTIPLIER,
      MALE_SENESCENT_MULTIPLIER, Nat.cast_zero, mul_zero, neg_zero,
      Real.exp_zero, mul_one] <;>
    nlinarith

lemma mortalityRaw_zero_lt (m : Bool) {e0 : ℝ} (h : 30 ≤ e0) :
    mortalityRaw 0 e0 m < 0.6 := by
  have hE := exp_three_lt
  have g1 : Real.exp ((75 - e0) * 0.055) ≤ Real.exp 3 :=
    Real.exp_le_exp.mpr (by nlinarith)
  have g2 : Real.exp ((75 - e0) * 0.015) ≤ Real.exp 3 :=
    Real.exp_le_exp.mpr (by nlinarith)
  have g3 : Real.exp ((80 - e0) * 0.055) ≤ Real.exp 3 :=
    Real.exp_le_exp.mpr (by nlinarith)
  have p1 := (Real.exp_pos ((75 - e0) * 0.055)).le
  have p2 := (Real.exp_pos ((75 - e0) * 0.015)).le
  have p3 := (Real.exp_pos ((80 - e0) * 0.055)).le
  unfold mortalityRaw
  cases m <;>
    simp only [Bool.false_eq_true, if_true, if_false,
      MALE_INFANT_MULTIPLIER, MALE_BACKGROUND_MULTIPLIER,
      MALE_SENESCENT_MULTIPLIER, Nat.cast_zero, mul_zero, neg_zero,
      Real.exp_zero, mul_one] <;>
    nlinarith

lemma getMortalityRate_antitone (age : ℕ) (m : Bool) {e0 e0' : ℝ}
    (h : e0 ≤ e0') :
    getMortalityRate age e0' m ≤ getMortalityRate age e0 m :=
  min_le_min (mortalityRaw_antitone age m h) le_rfl

lemma getMortalityRate_zero_strict_anti (m : Bool) {e0 e0' : ℝ}
    (h30 : 30 ≤ e0) (h : e0 < e0') :
    getMortalityRate 0 e0' m < getMortalityRate 0 e0 m := by
  have h1 : mortalityRaw 0 e0 m < 0.6 := mortalityRaw_zero_lt m h30
  have h2 : mortalityRaw 0 e0' m < mortalityRaw 0 e0 m :=
    mortalityRaw_zero_strict_anti m h
  unfold getMortalityRate
  rw [min_eq_left h1.le, min_eq_left (h2.trans h1).le]
  exact h2

lemma getSurvivalCurve_mono_e0 (m : Bool) {e0 e0' : ℝ} (h : e0 ≤ e0') (a : ℕ) :
    getSurvivalCurve e0 m a ≤ getSurvivalCurve e0' m a := by
  induction a with
  | zero => exact le_rfl
  | succ n ih =>
      have hm : Real.exp (-(getMortalityRate n e0 m)) ≤
          Real.exp (-(getMortalityRate n e0' m)) :=
        Real.exp_le_exp.mpr (neg_le_neg (getMortalityRate_antitone n m h))
      calc getSurvivalCurve e0 m (n + 1)
          = getSurvivalCurve e0 m n * Real.exp (-(getMortalityRate n e0 m)) :=
            rfl
        _ ≤ getSurvivalCurve e0' m n *
              Real.exp (-(getMortalityRate n e0' m)) :=
            mul_le_mul ih hm (Real.exp_pos _).le
              (getSurvivalCurve_pos e0' m n).le
        _ = getSurvivalCurve e0' m (n + 1) := rfl

lemma getSurvivalCurve_strict_mono_e0 (m : Bool) {e0 e0' : ℝ}
    (h30 : 30 ≤ e0) (h : e0 < e0') {a : ℕ} (ha : 1 ≤ a) :
    getSurvivalCurve e0 m a < getSurvivalCurve e0' m a := by
  induction a with
  | zero => omega
  | succ n ih =>
      rcases Nat.eq_zero_or_pos n with rfl | hn
      · show getSurvivalCurve e0 m 0 * Real.exp (-(getMortalityRate 0 e0 m)) <
          getSurvivalCurve e0' m 0 * Real.exp (-(getMortalityRate 0 e0' m))
        simp only [getSurvivalCurve, one_mul]
        exact Real.exp_lt_exp.mpr
          (neg_lt_neg (getMortalityRate_zero_strict_anti m h30 h))
      · have hlt := ih hn
        have hm : Real.exp (-(getMortalityRate n e0 m)) ≤
            Real.exp (-(getMortalityRate n e0' m)) :=
          Real.exp_le_exp.mpr (neg_le_neg (getMortalityRate_antitone n m h.le))
        calc getSurvivalCurve e0 m (n + 1)
            = getSurvivalCurve e0 m n *
                Real.exp (-(getMortalityRate n e0 m)) := rfl
          _ < getSurvivalCurve e0' m n *
                Real.exp (-(getMortalityRate n e0 m)) :=
              mul_lt_mul_of_pos_right hlt (Real.exp_pos _)
          _ ≤ getSurvivalCurve e0' m n *
                Real.exp (-(getMortalityRate n e0' m)) :=
              mul_le_mul_of_nonneg_left hm (getSurvivalCurve_pos e0' m n).le
          _ = getSurvivalCurve e0' m (n + 1) := rfl

/-- C5: holding sex fixed, increasing the life-expectancy target within
the valid domain [30, 95] strictly increases the realized life
expectancy (the sum of the survival curve over all ages), despite the
0.6/year hazard clamp. -/
theorem life_expectancy_strict_mono (m : Bool) (e0 e0' : ℝ)
    (h1 : 30 ≤ e0) (h2 : e0 < e0') (h3 : e0' ≤ 95) :
    calculateLifeExpectancy (getSurvivalCurve e0 m) <
      calculateLifeExpectancy (getSurvivalCurve e0' m) := by
  unfold calculateLifeExpectancy
  refine Finset.sum_lt_sum (fun i _ => getSurvivalCurve_mono_e0 m h2.le i) ?_
  refine ⟨1, ?_, getSurvivalCurve_strict_mono_e0 m h1 h2 le_rfl⟩
  simp [numAges]

theorem life_expectancy_strict_mono_witness :
    (30 : ℝ) ≤ 75 ∧ (75 : ℝ) < 80 ∧ (80 : ℝ) ≤ 95 ∧
    calculateLifeExpectancy (getSurvivalCurve 75 false) <
      calculateLifeExpectancy (getSurvivalCurve 80 false) :=
  ⟨by norm_num, by norm_num, by norm_num,
    life_expectancy_strict_mono false 75 80 (by norm_num) (by norm_num)
      (by norm_num)⟩

/-- Biological maximum age-specific fertility rate (`MAX_ASFR`). -/
def MAX_ASFR : ℝ := 1.1

/-- Raw (unnormalized) fertility shape of `getFertilitySchedule`:
Gaussian primary peak, optional secondary peak (active only when more
than 5 years from the primary, weighted 0.6), and the post-40
biological decline, on the fertile window `[12, 55)`; zero elsewhere. -/
noncomputable def fertilityRaw (peak sigma : ℝ) (secondPeak : Option ℝ)
    (a : ℕ) : ℝ :=
  if 12 ≤ a ∧ a < 55 then
    let primary := Real.exp (-((a : ℝ) - peak) ^ 2 / (2 * sigma ^ 2))
    let secondary :=
      match secondPeak with
      | some sp =>
          if 5 < |sp - peak| then
            Real.exp (-((a : ℝ) - sp) ^ 2 / (2 * sigma ^ 2)) * 0.6
          else 0
      | none => 0
    let biologicalDecline :=
      if 40 < a then Real.exp (-0.1 * ((a : ℝ) - 40)) else 1
    (primary + secondary) * biologicalDecline
  else 0

/-- Sum of the raw fertility shape over the whole age array. -/
noncomputable def fertilityRawSum (peak sigma : ℝ)
    (secondPeak : Option ℝ) : ℝ :=
  ∑ a ∈ Finset.range numAges, fertilityRaw peak sigma secondPeak a

/-- Raw shape normalized so that its sum equals the target TFR. -/
noncomputable def fertilityNormalized (peak sigma : ℝ) (secondPeak : Option ℝ)
    (tfr : ℝ) (a : ℕ) : ℝ :=
  fertilityRaw peak sigma secondPeak a / fertilityRawSum peak sigma secondPeak
    * tfr

/-- Normalized schedule clamped at `MAX_ASFR` per age. -/
noncomputable def fertilityCapped (peak sigma : ℝ) (secondPeak : Option ℝ)
    (tfr : ℝ) (a : ℕ) : ℝ :=
  min (fertilityNormalized peak sigma secondPeak tfr a) MAX_ASFR

/-- Sum of the clamped schedule. -/
noncomputable def fertilityTotalCapped (peak sigma : ℝ)
    (secondPeak : Option ℝ) (tfr : ℝ) : ℝ :=
  ∑ a ∈ Finset.range numAges, fertilityCapped peak sigma secondPeak tfr a

open Classical in
/-- Number of fertile ages that are still below the cap and can receive
redistributed fertility (`numCanReceive`). -/
noncomputable def fertilityNumCanReceive (peak sigma : ℝ)
    (secondPeak : Option ℝ) (tfr : ℝ) : ℕ :=
  ((Finset.range numAges).filter fun a =>
    fertilityCapped peak sigma secondPeak tfr a < MAX_ASFR ∧
      12 ≤ a ∧ a < 55).card

open Classical in
/-- The schedule after the single redistribution pass of
`getFertilitySchedule`, written pointwise: when the capped flag is
raised and at least one fertile age is below the cap, every such age
receives an equal share of the lost fertility, re-clamped at
`MAX_ASFR`; otherwise the clamped schedule is returned unchanged. -/
noncomputable def fertilityRedistributed (peak sigma : ℝ)
    (secondPeak : Option ℝ) (tfr : ℝ) (a : ℕ) : ℝ :=
  let capped := fertilityCapped peak sigma secondPeak tfr
  let totalCapped := fertilityTotalCapped peak sigma secondPeak tfr
  let lostFertility := tfr - totalCapped
  let numCanReceive := fertilityNumCanReceive peak sigma secondPeak tfr
  if totalCapped < tfr * 0.99 ∧ 0 < numCanReceive then
    if capped a < MAX_ASFR ∧ 12 ≤ a ∧ a < 55 then
      min (capped a + lostFertility / (numCanReceive : ℝ)) MAX_ASFR
    else capped a
  else capped a

/-- Result record of `getFertilitySchedule`: the per-age schedule plus
the `biologicallyCapped` / `effectiveTFR` fields attached to the
returned array.  On the divide-by-zero guard path the source returns
the raw array without attaching the two fields, modelled by `none`. -/
structure FertilityResult where
  schedule : ℕ → ℝ
  biologicallyCapped : Option Bool
  effectiveTFR : Option ℝ

open Classical in
/-- `getFertilitySchedule(peak, spreadVal, secondPeak, tfr)` from the
source: floor the spread at 2.5, build the raw Gaussian shape, guard
against a vanishing raw sum, normalize to the target TFR, clamp at
`MAX_ASFR`, and redistribute the capped shortfall in a single pass when
the capped sum falls below 99% of the target. -/
noncomputable def getFertilitySchedule (peak spreadVal : ℝ)
    (secondPeak : Option ℝ) (tfr : ℝ) : FertilityResult :=
  let sigma := max spreadVal 2.5
  if fertilityRawSum peak sigma secondPeak < 1e-10 then
    { schedule := fertilityRaw peak sigma secondPeak
      biologicallyCapped := none
      effectiveTFR := none }
  else
    { schedule := fertilityRedistributed peak sigma secondPeak tfr
      biologicallyCapped :=
        some (decide (fertilityTotalCapped peak sigma secondPeak tfr <
          tfr * 0.99))
      effectiveTFR :=
        some (∑ a ∈ Finset.range numAges,
          fertilityRedistributed peak sigma secondPeak tfr a) }

lemma fertilityRaw_nonneg (peak sigma : ℝ) (sp : Option ℝ) (a : ℕ) :
    0 ≤ fertilityRaw peak sigma sp a := by
  unfold fertilityRaw
  split
  · have h1 := (Real.exp_pos (-((a : ℝ) - peak) ^ 2 / (2 * sigma ^ 2))).le
    have h2 : (0:ℝ) ≤ (match sp with
      | some s =>
          if 5 < |s - peak| then
            Real.exp (-((a : ℝ) - s) ^ 2 / (2 * sigma ^ 2)) * 0.6
          else 0
      | none => 0) := by
      rcases sp with _ | s
      · simp
      · dsimp only
        split
        · positivity
        · exact le_refl 0
    have h3 : (0:ℝ) ≤
        (if 40 < a then Real.exp (-0.1 * ((a : ℝ) - 40)) else 1) := by
      split
      · positivity
      · norm_num
    dsimp only
    exact mul_nonneg (add_nonneg h1 h2) h3
  · exact le_refl 0

lemma fertilityRaw_eq_zero (peak sigma : ℝ) (sp : Option ℝ) {a : ℕ}
    (h : a < 12 ∨ 55 ≤ a) : fertilityRaw peak sigma sp a = 0 := by
  unfold fertilityRaw
  rw [if_neg]
  omega

lemma fertilityRawSum_nonneg (peak sigma : ℝ) (sp : Option ℝ) :
    0 ≤ fertilityRawSum peak sigma sp :=
  Finset.sum_nonneg fun a _ => fertilityRaw_nonneg peak sigma sp a

lemma fertilityRaw_le_sum (peak sigma : ℝ) (sp : Option ℝ) (a : ℕ) :
    fertilityRaw peak sigma sp a ≤ fertilityRawSum peak sigma sp := by
  rcases Nat.lt_or_ge a numAges with h | h
  · exact Finset.single_le_sum
      (fun i _ => fertilityRaw_nonneg peak sigma sp i)
      (Finset.mem_range.mpr h)
  · rw [fertilityRaw_eq_zero peak sigma sp (Or.inr (by unfold numAges at h; omega))]
    exact fertilityRawSum_nonneg peak sigma sp

lemma fertilityNormalized_nonneg (peak sigma : ℝ) (sp : Option ℝ) {tfr : ℝ}
    (htfr : 0 ≤ tfr) (a : ℕ) :
    0 ≤ fertilityNormalized peak sigma sp tfr a := by
  unfold fertilityNormalized
  have h1 := fertilityRaw_nonneg peak sigma sp a
  have h2 := fertilityRawSum_nonneg peak sigma sp
  positivity

lemma fertilityNormalized_sum (peak sigma : ℝ) (sp : Option ℝ) (tfr : ℝ)
    (h : fertilityRawSum peak sigma sp ≠ 0) :
    ∑ a ∈ Finset.range numAges, fertilityNormalized peak sigma sp tfr a
      = tfr := by
  unfold fertilityNormalized
  rw [← Finset.sum_mul, ← Finset.sum_div]
  rw [show (∑ a ∈ Finset.range numAges, fertilityRaw peak sigma sp a)
    = fertilityRawSum peak sigma sp from rfl]
  field_simp

lemma fertilityCapped_nonneg (peak sigma : ℝ) (sp : Option ℝ) {tfr : ℝ}
    (htfr : 0 ≤ tfr) (a : ℕ) :
    0 ≤ fertilityCapped peak sigma sp tfr a :=
  le_min (fertilityNormalized_nonneg peak sigma sp htfr a)
    (by unfold MAX_ASFR; norm_num)

lemma fertilityCapped_le (peak sigma : ℝ) (sp : Option ℝ) (tfr : ℝ) (a : ℕ) :
    fertilityCapped peak sigma sp tfr a ≤ MAX_ASFR :=
  min_le_right _ _

lemma fertilityCapped_eq_zero (peak sigma : ℝ) (sp : Option ℝ) (tfr : ℝ)
    {a : ℕ} (h : a < 12 ∨ 55 ≤ a) :
    fertilityCapped peak sigma sp tfr a = 0 := by
  unfold fertilityCapped fertilityNormalized
  rw [fertilityRaw_eq_zero peak sigma sp h]
  unfold MAX_ASFR
  norm_num

lemma fertilityRedistributed_nonneg (peak sigma : ℝ) (sp : Option ℝ)
    {tfr : ℝ} (htfr : 0 ≤ tfr) (a : ℕ) :
    0 ≤ fertilityRedistributed peak sigma sp tfr a := by
  unfold fertilityRedistributed
  dsimp only
  split_ifs with h1 h2
  · refine le_min (add_nonneg (fertilityCapped_nonneg peak sigma sp htfr a) ?_)
      (by unfold MAX_ASFR; norm_num)
    have hlost : 0 ≤ tfr - fertilityTotalCapped peak sigma sp tfr := by
      nlinarith [h1.1]
    positivity
  · exact fertilityCapped_nonneg peak sigma sp htfr a
  · exact fertilityCapped_nonneg peak sigma sp htfr a

lemma fertilityRedistributed_le (peak sigma : ℝ) (sp : Option ℝ) (tfr : ℝ)
    (a : ℕ) :
    fertilityRedistributed peak sigma sp tfr a ≤ MAX_ASFR := by
  unfold fertilityRedistributed
  dsimp only
  split_ifs with h1 h2
  · exact min_le_right _ _
  · exact fertilityCapped_le peak sigma sp tfr a
  · exact fertilityCapped_le peak sigma sp tfr a

lemma fertilityRedistributed_eq_zero (peak sigma : ℝ) (sp : Option ℝ)
    (tfr : ℝ) {a : ℕ} (h : a < 12 ∨ 55 ≤ a) :
    fertilityRedistributed peak sigma sp tfr a = 0 := by
  unfold fertilityRedistributed
  dsimp only
  split_ifs with h1 h2
  · omega
  · exact fertilityCapped_eq_zero peak sigma sp tfr h
  · exact fertilityCapped_eq_zero peak sigma sp tfr h

lemma fertilityCapped_sum_le (peak sigma : ℝ) (sp : Option ℝ) (tfr : ℝ)
    (hS : fertilityRawSum peak sigma sp ≠ 0) :
    fertilityTotalCapped peak sigma sp tfr ≤ tfr := by
  unfold fertilityTotalCapped
  calc ∑ a ∈ Finset.range numAges, fertilityCapped peak sigma sp tfr a
      ≤ ∑ a ∈ Finset.range numAges, fertilityNormalized peak sigma sp tfr a :=
        Finset.sum_le_sum fun a _ => min_le_left _ _
    _ = tfr := fertilityNormalized_sum peak sigma sp tfr hS

open Classical in
lemma fertilityRedistributed_sum_le (peak sigma : ℝ) (sp : Option ℝ)
    {tfr : ℝ} (htfr : 0 ≤ tfr) (hS : fertilityRawSum peak sigma sp ≠ 0) :
    ∑ a ∈ Finset.range numAges, fertilityRedistributed peak sigma sp tfr a
      ≤ tfr := by
  have hT := fertilityCapped_sum_le peak sigma sp tfr hS
  by_cases hc : fertilityTotalCapped peak sigma sp tfr < tfr * 0.99 ∧
      0 < fertilityNumCanReceive peak sigma sp tfr
  · set T := fertilityTotalCapped peak sigma sp tfr with hTdef
    set num := fertilityNumCanReceive peak sigma sp tfr with hnumdef
    have hstep : ∀ a ∈ Finset.range numAges,
        fertilityRedistributed peak sigma sp tfr a ≤
          fertilityCapped peak sigma sp tfr a +
            (if fertilityCapped peak sigma sp tfr a < MAX_ASFR ∧
                12 ≤ a ∧ a < 55 then (tfr - T) / (num : ℝ) else 0) := by
      intro a _
      unfold fertilityRedistributed
      dsimp only
      rw [if_pos hc]
      split_ifs with h2
      · exact min_le_left _ _
      · simp
    calc ∑ a ∈ Finset.range numAges, fertilityRedistributed peak sigma sp tfr a
        ≤ ∑ a ∈ Finset.range numAges,
            (fertilityCapped peak sigma sp tfr a +
              (if fertilityCapped peak sigma sp tfr a < MAX_ASFR ∧
                  12 ≤ a ∧ a < 55 then (tfr - T) / (num : ℝ) else 0)) :=
          Finset.sum_le_sum hstep
      _ = T + ∑ a ∈ Finset.range numAges,
            (if fertilityCapped peak sigma sp tfr a < MAX_ASFR ∧
                12 ≤ a ∧ a < 55 then (tfr - T) / (num : ℝ) else 0) := by
          rw [Finset.sum_add_distrib]
          rfl
      _ = T + (num : ℝ) * ((tfr - T) / (num : ℝ)) := by
          congr 1
          rw [← Finset.sum_filter, Finset.sum_const, nsmul_eq_mul]
          congr 1
      _ = T + (tfr - T) := by
          have : (num : ℝ) ≠ 0 := Nat.cast_ne_zero.mpr hc.2.ne'
          field_simp
      _ = tfr := by ring
  · have : ∀ a ∈ Finset.range numAges,
        fertilityRedistributed peak sigma sp tfr a =
          fertilityCapped peak sigma sp tfr a := by
      intro a _
      unfold fertilityRedistributed
      dsimp only
      rw [if_neg hc]
    rw [Finset.sum_congr rfl this]
    exact hT

open Classical in
lemma getFertilitySchedule_zero_path (peak spreadVal : ℝ) (sp : Option ℝ)
    (tfr : ℝ) (h : fertilityRawSum peak (max spreadVal 2.5) sp < 1e-10) :
    getFertilitySchedule peak spreadVal sp tfr =
      { schedule := fertilityRaw peak (max spreadVal 2.5) sp
        biologicallyCapped := none
        effectiveTFR := none } := by
  unfold getFertilitySchedule
  rw [if_pos h]

open Classical in
lemma getFertilitySchedule_main_path (peak spreadVal : ℝ) (sp : Option ℝ)
    (tfr : ℝ) (h : ¬ fertilityRawSum peak (max spreadVal 2.5) sp < 1e-10) :
    getFertilitySchedule peak spreadVal sp tfr =
      { schedule := fertilityRedistributed peak (max spreadVal 2.5) sp tfr
        biologicallyCapped :=
          some (decide
            (fertilityTotalCapped peak (max spreadVal 2.5) sp tfr <
              tfr * 0.99))
        effectiveTFR :=
          some (∑ a ∈ Finset.range numAges,
            fertilityRedistributed peak (max spreadVal 2.5) sp tfr a) } := by
  unfold getFertilitySchedule
  rw [if_neg h]

/-- C10: for every input with a nonnegative target TFR, every entry of
the returned schedule lies in `[0, MAX_ASFR]`, entries outside the
fertile window `[12, 55)` are exactly zero, and whenever the
`effectiveTFR` field is attached its value never exceeds the target
TFR. -/
theorem fertility_schedule_range (peak spreadVal : ℝ) (sp : Option ℝ)
    (tfr : ℝ) (htfr : 0 ≤ tfr) :
    (∀ a, 0 ≤ (getFertilitySchedule peak spreadVal sp tfr).schedule a ∧
      (getFertilitySchedule peak spreadVal sp tfr).schedule a ≤ MAX_ASFR) ∧
    (∀ a, a < 12 ∨ 55 ≤ a →
      (getFertilitySchedule peak spreadVal sp tfr).schedule a = 0) ∧
    (∀ v, (getFertilitySchedule peak spreadVal sp tfr).effectiveTFR = some v →
      v ≤ tfr) := by
  by_cases h : fertilityRawSum peak (max spreadVal 2.5) sp < 1e-10
  · rw [getFertilitySchedule_zero_path peak spreadVal sp tfr h]
    refine ⟨fun a => ⟨fertilityRaw_nonneg _ _ _ a, ?_⟩, fun a ha => ?_, ?_⟩
    · calc fertilityRaw peak (max spreadVal 2.5) sp a
          ≤ fertilityRawSum peak (max spreadVal 2.5) sp :=
            fertilityRaw_le_sum _ _ _ a
        _ ≤ MAX_ASFR := by unfold MAX_ASFR; nlinarith
    · exact fertilityRaw_eq_zero _ _ _ ha
    · intro v hv
      simp at hv
  · have hS : fertilityRawSum peak (max spreadVal 2.5) sp ≠ 0 := by
      intro h0
      rw [h0] at h
      norm_num at h
    rw [getFertilitySchedule_main_path peak spreadVal sp tfr h]
    refine ⟨fun a => ⟨fertilityRedistributed_nonneg _ _ _ htfr a,
      fertilityRedistributed_le _ _ _ _ a⟩, fun a ha =>
      fertilityRedistributed_eq_zero _ _ _ _ ha, ?_⟩
    intro v hv
    simp only [Option.some.injEq] at hv
    rw [← hv]
    exact fertilityRedistributed_sum_le _ _ _ htfr hS

theorem fertility_schedule_range_witness :
    (0 : ℝ) ≤ 2.1 ∧
    ((∀ a, 0 ≤ (getFertilitySchedule 27 7 none 2.1).schedule a ∧
      (getFertilitySchedule 27 7 none 2.1).schedule a ≤ MAX_ASFR) ∧
    (∀ a, a < 12 ∨ 55 ≤ a →
      (getFertilitySchedule 27 7 none 2.1).schedule a = 0) ∧
    (∀ v, (getFertilitySchedule 27 7 none 2.1).effectiveTFR = some v →
      v ≤ 2.1)) :=
  ⟨by norm_num, fertility_schedule_range 27 7 none 2.1 (by norm_num)⟩

/-- Mutable population container: the three parallel age-bucketed
cohort sequences. -/
structure PopState where
  total : ℕ → ℝ
  male : ℕ → ℝ
  female : ℕ → ℝ

/-- Scenario presets of the source. -/
inductive Scenario
  | baseline
  | early
  | late
  | bimodal
  | custom

/-- Configuration parameters read by `initialize` and `simulateStep`. -/
@[ext] structure Config where
  scenario : Scenario
  totalFertility : ℝ
  lifeExpectancy : ℝ
  peakFertilityAge : ℝ
  fertilitySpread : ℝ
  sexRatioBirth : ℝ
  initialPopulation : ℝ

/-- Effective fertility-shape parameters (`getEffectiveParams`). -/
structure EffParams where
  peakAge : ℝ
  spread : ℝ
  secondPeak : Option ℝ

/-- `getEffectiveParams` from the source: scenario presets override the
custom sliders except in the `custom` scenario. -/
def getEffectiveParams (c : Config) : EffParams :=
  match c.scenario with
  | .baseline => ⟨27, 7, none⟩
  | .early => ⟨21, 5, none⟩
  | .late => ⟨33, 6, none⟩
  | .bimodal => ⟨20, 4, some 35⟩
  | .custom => ⟨c.peakFertilityAge, c.fertilitySpread, none⟩

/-- The fertility schedule recomputed from the current parameters (used
identically by `initialize` and `simulateStep`). -/
noncomputable def currentSchedule (c : Config) : ℕ → ℝ :=
  (getFertilitySchedule (getEffectiveParams c).peakAge
    (getEffectiveParams c).spread (getEffectiveParams c).secondPeak
    c.totalFertility).schedule

/-- Births of one step: fertility times the female cohorts over the
fertile window (ages 12..54). -/
noncomputable def stepBirths (c : Config) (s : PopState) : ℝ :=
  ∑ a ∈ Finset.Ico 12 55, currentSchedule c a * s.female a

/-- Age-weighted birth sum of one step. -/
noncomputable def stepWeightedAgeSum (c : Config) (s : PopState) : ℝ :=
  ∑ a ∈ Finset.Ico (12 : ℕ) 55, (a : ℝ) * (currentSchedule c a * s.female a)

/-- Mean parent age of one step, falling back to the configured peak
age when no births occur. -/
noncomputable def stepMeanParentAge (c : Config) (s : PopState) : ℝ :=
  if 0 < stepBirths c s then stepWeightedAgeSum c s / stepBirths c s
  else (getEffectiveParams c).peakAge

/-- New female distribution of one step (female mortality track). -/
noncomputable def stepNewFemale (c : Config) (s : PopState) (a : ℕ) : ℝ :=
  if a = 0 then stepBirths c s * c.sexRatioBirth
  else if a < numAges then
    max 0 (s.female (a - 1) *
      Real.exp (-(getMortalityRate (a - 1) c.lifeExpectancy false)))
  else 0

/-- New male distribution of one step (male mortality track). -/
noncomputable def stepNewMale (c : Config) (s : PopState) (a : ℕ) : ℝ :=
  if a = 0 then stepBirths c s * (1 - c.sexRatioBirth)
  else if a < numAges then
    max 0 (s.male (a - 1) *
      Real.exp (-(getMortalityRate (a - 1) c.lifeExpectancy true)))
  else 0

/-- New total distribution of one step (sex-unspecified mortality call,
which defaults to the female hazard in the source). -/
noncomputable def stepNewDist (c : Config) (s : PopState) (a : ℕ) : ℝ :=
  if a = 0 then stepBirths c s
  else if a < numAges then
    max 0 (s.total (a - 1) *
      Real.exp (-(getMortalityRate (a - 1) c.lifeExpectancy false)))
  else 0

/-- Deaths of one step: per-age mortality losses of the total track
plus the unconditional removal of the oldest cohort. -/
noncomputable def stepDeaths (c : Config) (s : PopState) : ℝ :=
  (∑ a ∈ Finset.Ico 1 numAges,
    s.total (a - 1) *
      (1 - Real.exp (-(getMortalityRate (a - 1) c.lifeExpectancy false))))
    + s.total (numAges - 1)

/-- Working-age sum (ages 15..64) of the new total distribution. -/
noncomputable def stepWorking (c : Config) (s : PopState) : ℝ :=
  ∑ a ∈ Finset.Ico 15 65, stepNewDist c s a

/-- Young (0..14) plus old (65..) sum of the new total distribution. -/
noncomputable def stepYoungOld (c : Config) (s : PopState) : ℝ :=
  (∑ a ∈ Finset.range 15, stepNewDist c s a) +
    ∑ a ∈ Finset.Ico 65 numAges, stepNewDist c s a

/-- Dependency ratio of one step, 0 when the working-age sum is 0. -/
noncomputable def stepDependencyRatio (c : Config) (s : PopState) : ℝ :=
  if 0 < stepWorking c s then stepYoungOld c s / stepWorking c s else 0

/-- `simulateStep`: commit the three freshly computed distributions. -/
noncomputable def simulateStep (c : Config) (s : PopState) : PopState :=
  { total := stepNewDist c s
    male := stepNewMale c s
    female := stepNewFemale c s }

/-- C1: mass conservation per step — for every pre-step state with
nonnegative cohort counts, the sum of the new total distribution equals
the sum of the old total distribution minus deaths plus births (exact
over the reals, hence within any floating tolerance). -/
theorem mass_conservation (c : Config) (s : PopState)
    (h : ∀ a, a < numAges → 0 ≤ s.total a) :
    ∑ a ∈ Finset.range numAges, stepNewDist c s a =
      ∑ a ∈ Finset.range numAges, s.total a - stepDeaths c s +
        stepBirths c s := by
  have hL : ∑ a ∈ Finset.range numAges, stepNewDist c s a
      = stepBirths c s + ∑ i ∈ Finset.range 99, s.total i *
          Real.exp (-(getMortalityRate i c.lifeExpectancy false)) := by
    rw [show numAges = 99 + 1 from rfl, Finset.sum_range_succ']
    have h1 : ∀ i ∈ Finset.range 99, stepNewDist c s (i + 1) =
        s.total i * Real.exp (-(getMortalityRate i c.lifeExpectancy false)) := by
      intro i hi
      have hi' : i < 99 := Finset.mem_range.mp hi
      unfold stepNewDist
      rw [if_neg (by omega), if_pos (by unfold numAges; omega)]
      simp only [Nat.add_sub_cancel]
      exact max_eq_right (mul_nonneg (h i (by unfold numAges; omega))
        (Real.exp_pos _).le)
    rw [Finset.sum_congr rfl h1]
    have h0 : stepNewDist c s 0 = stepBirths c s := if_pos rfl
    rw [h0]
    ring
  have hD : stepDeaths c s =
      (∑ i ∈ Finset.range 99, s.total i *
        (1 - Real.exp (-(getMortalityRate i c.lifeExpectancy false)))) +
        s.total 99 := by
    unfold stepDeaths
    rw [show numAges = 100 from rfl, Finset.sum_Ico_eq_sum_range]
    norm_num
  have hT : ∑ a ∈ Finset.range numAges, s.total a =
      (∑ i ∈ Finset.range 99, s.total i) + s.total 99 := by
    rw [show numAges = 99 + 1 from rfl, Finset.sum_range_succ]
  have hcombo : ∑ i ∈ Finset.range 99, s.total i =
      (∑ i ∈ Finset.range 99, s.total i *
        Real.exp (-(getMortalityRate i c.lifeExpectancy false))) +
      ∑ i ∈ Finset.range 99, s.total i *
        (1 - Real.exp (-(getMortalityRate i c.lifeExpectancy false))) := by
    rw [← Finset.sum_add_distrib]
    exact Finset.sum_congr rfl fun i _ => by ring
  rw [hL, hD, hT]
  linarith [hcombo]

/-- Pre-step state of all-zero cohorts, used as a concrete input. -/
def zeroState : PopState :=
  { total := fun _ => 0, male := fun _ => 0, female := fun _ => 0 }

/-- Baseline configuration of the source (default slider values). -/
def baselineConfig : Config :=
  { scenario := .baseline
    totalFertility := 2.1
    lifeExpectancy := 75
    peakFertilityAge := 27
    fertilitySpread := 7
    sexRatioBirth := 0.488
    initialPopulation := 10000 }

theorem mass_conservation_witness :
    (∀ a, a < numAges → 0 ≤ zeroState.total a) ∧
    ∑ a ∈ Finset.range numAges, stepNewDist baselineConfig zeroState a =
      ∑ a ∈ Finset.range numAges, zeroState.total a -
        stepDeaths baselineConfig zeroState +
        stepBirths baselineConfig zeroState :=
  ⟨fun a _ => le_refl 0, mass_conservation baselineConfig zeroState
    fun a _ => le_refl 0⟩

/-- Immutable per-step snapshot appended to the history log. -/
structure HistoryEntry where
  time : ℕ
  population : ℝ
  births : ℝ
  deaths : ℝ
  meanParentAge : ℝ
  dependencyRatio : ℝ
  ageDistribution : ℕ → ℝ
  maleDistribution : ℕ → ℝ
  femaleDistribution : ℕ → ℝ
  lifeExpectancy : ℝ
  totalFertility : ℝ
  peakFertilityAge : ℝ
  fertilitySpread : ℝ
  sexRatioBirth : ℝ

/-- Sum of the female survival curve over all ages (`rawTotal` of
`initialize`). -/
noncomputable def initRawTotal (c : Config) : ℝ :=
  ∑ a ∈ Finset.range numAges, getSurvivalCurve c.lifeExpectancy false a

/-- Initial total distribution: the survival-weighted stationary shape
scaled so the population equals `initialPopulation`. -/
noncomputable def initDistribution (c : Config) (a : ℕ) : ℝ :=
  if a < numAges then
    getSurvivalCurve c.lifeExpectancy false a *
      (c.initialPopulation / initRawTotal c)
  else 0

/-- Initial births: fertility times the initial cohorts, halved for the
female share (the initializer assumes a 50/50 split). -/
noncomputable def initBirths (c : Config) : ℝ :=
  ∑ a ∈ Finset.Ico 12 55, currentSchedule c a * initDistribution c a * 0.5

/-- Age-weighted initial births. -/
noncomputable def initWeightedAgeSum (c : Config) : ℝ :=
  ∑ a ∈ Finset.Ico (12 : ℕ) 55,
    (a : ℝ) * (currentSchedule c a * initDistribution c a * 0.5)

/-- Initial deaths: exponential mortality applied to every cohort. -/
noncomputable def initDeaths (c : Config) : ℝ :=
  ∑ a ∈ Finset.range numAges,
    initDistribution c a *
      (1 - Real.exp (-(getMortalityRate a c.lifeExpectancy false)))

/-- Initial mean parent age with the no-births fallback. -/
noncomputable def initMeanParentAge (c : Config) : ℝ :=
  if 0 < initBirths c then initWeightedAgeSum c / initBirths c
  else (getEffectiveParams c).peakAge

/-- Initial working-age sum. -/
noncomputable def initWorking (c : Config) : ℝ :=
  ∑ a ∈ Finset.Ico 15 65, initDistribution c a

/-- Initial young-plus-old sum. -/
noncomputable def initYoungOld (c : Config) : ℝ :=
  (∑ a ∈ Finset.range 15, initDistribution c a) +
    ∑ a ∈ Finset.Ico 65 numAges, initDistribution c a

/-- Initial dependency ratio with the zero-working-age guard. -/
noncomputable def initDependencyRatio (c : Config) : ℝ :=
  if 0 < initWorking c then initYoungOld c / initWorking c else 0

/-- Initial population state: stationary total distribution with an
exact 50/50 male/female split. -/
noncomputable def initState (c : Config) : PopState :=
  { total := initDistribution c
    male := fun a => initDistribution c a * 0.5
    female := fun a => initDistribution c a * 0.5 }

/-- First history entry written by `initialize` (time 0). -/
noncomputable def initHistoryEntry (c : Config) : HistoryEntry :=
  { time := 0
    population := ∑ a ∈ Finset.range numAges, initDistribution c a
    births := initBirths c
    deaths := initDeaths c
    meanParentAge := initMeanParentAge c
    dependencyRatio := initDependencyRatio c
    ageDistribution := initDistribution c
    maleDistribution := fun a => initDistribution c a * 0.5
    femaleDistribution := fun a => initDistribution c a * 0.5
    lifeExpectancy := c.lifeExpectancy
    totalFertility := c.totalFertility
    peakFertilityAge := c.peakFertilityAge
    fertilitySpread := c.fertilitySpread
    sexRatioBirth := c.sexRatioBirth }

/-- `initialize(config)`: the initial population state together with
the first history entry. -/
noncomputable def initResult (c : Config) : PopState × HistoryEntry :=
  (initState c, initHistoryEntry c)

/-- C8: determinism of initialization — two configurations that agree
on every parameter (scenario, totalFertility, lifeExpectancy,
peakFertilityAge, fertilitySpread, sexRatioBirth, initialPopulation)
produce identical initial distributions and identical first
history-entry values; the embedding is a pure function of the
configuration, with no source of randomness. -/
theorem initialize_deterministic (c1 c2 : Config)
    (h1 : c1.scenario = c2.scenario)
    (h2 : c1.totalFertility = c2.totalFertility)
    (h3 : c1.lifeExpectancy = c2.lifeExpectancy)
    (h4 : c1.peakFertilityAge = c2.peakFertilityAge)
    (h5 : c1.fertilitySpread = c2.fertilitySpread)
    (h6 : c1.sexRatioBirth = c2.sexRatioBirth)
    (h7 : c1.initialPopulation = c2.initialPopulation) :
    initResult c1 = initResult c2 := by
  have : c1 = c2 := Config.ext h1 h2 h3 h4 h5 h6 h7
  rw [this]

theorem initialize_deterministic_witness :
    baselineConfig.scenario = baselineConfig.scenario ∧
    initResult baselineConfig = initResult baselineConfig :=
  ⟨rfl, initialize_deterministic baselineConfig baselineConfig rfl rfl rfl
    rfl rfl rfl rfl⟩

/-- C2 (amended): the sex-consistency identity `total[a] =
male[a] + female[a]` holds exactly after initialization at every age,
and after a simulation step it holds at the newborn age 0; at ages 1
and above the total track ages under the sex-unspecified (female)
hazard while the male track uses the higher male hazard, so the
identity is not preserved by a step in general. -/
theorem sex_consistency_amended :
    (∀ (c : Config) (a : ℕ),
      (initState c).total a = (initState c).male a + (initState c).female a) ∧
    (∀ (c : Config) (s : PopState),
      stepNewDist c s 0 = stepNewMale c s 0 + stepNewFemale c s 0) := by
  constructor
  · intro c a
    show initDistribution c a =
      initDistribution c a * 0.5 + initDistribution c a * 0.5
    ring
  · intro c s
    show stepBirths c s =
      stepBirths c s * (1 - c.sexRatioBirth) + stepBirths c s * c.sexRatioBirth
    ring

/-- C7: the division guards — zero births fall back to the configured
peak fertility age for the mean parent age, a zero working-age sum
yields a zero dependency ratio, and a vanishing raw fertility sum
returns the raw (approximately zero) schedule unmodified, so no
division by a vanishing quantity occurs. -/
theorem division_guards :
    (∀ (c : Config) (s : PopState), stepBirths c s = 0 →
      stepMeanParentAge c s = (getEffectiveParams c).peakAge) ∧
    (∀ (c : Config) (s : PopState), stepWorking c s = 0 →
      stepDependencyRatio c s = 0) ∧
    (∀ (peak spreadVal : ℝ) (sp : Option ℝ) (tfr : ℝ),
      fertilityRawSum peak (max spreadVal 2.5) sp < 1e-10 →
      (getFertilitySchedule peak spreadVal sp tfr).schedule =
        fertilityRaw peak (max spreadVal 2.5) sp ∧
      ∀ a, 0 ≤ (getFertilitySchedule peak spreadVal sp tfr).schedule a ∧
        (getFertilitySchedule peak spreadVal sp tfr).schedule a < 1e-10) := by
  refine ⟨?_, ?_, ?_⟩
  · intro c s h
    unfold stepMeanParentAge
    rw [h]
    simp
  · intro c s h
    unfold stepDependencyRatio
    rw [h]
    simp
  · intro peak spreadVal sp tfr h
    rw [getFertilitySchedule_zero_path peak spreadVal sp tfr h]
    refine ⟨rfl, fun a => ⟨fertilityRaw_nonneg _ _ _ a, ?_⟩⟩
    calc fertilityRaw peak (max spreadVal 2.5) sp a
        ≤ fertilityRawSum peak (max spreadVal 2.5) sp :=
          fertilityRaw_le_sum _ _ _ a
      _ < 1e-10 := h

lemma stepNewDist_zeroState (c : Config) {a : ℕ} (h0 : a ≠ 0) :
    stepNewDist c zeroState a = 0 := by
  unfold stepNewDist zeroState
  rw [if_neg h0]
  split
  · simp
  · rfl

lemma fertilityRaw_far_peak_le {a : ℕ} (ha : a < numAges) :
    fertilityRaw 1e8 (max 2.5 2.5) none a ≤ 1e-13 := by
  rw [max_self]
  unfold fertilityRaw
  split
  · rename_i hw
    have ha55 : (a : ℝ) < 55 := by exact_mod_cast hw.2
    have hpos : (0:ℝ) ≤ (a:ℝ) := Nat.cast_nonneg a
    have hsq : (7e14 : ℝ) ≤ ((a : ℝ) - 1e8) ^ 2 / (2 * (2.5:ℝ) ^ 2) := by
      have h1 : (1e8 - 55 : ℝ) ≤ 1e8 - (a:ℝ) := by linarith
      have h2 : ((1e8 : ℝ) - 55) ^ 2 ≤ (1e8 - (a:ℝ)) ^ 2 :=
        pow_le_pow_left (by norm_num) h1 2
      have h3 : ((a : ℝ) - 1e8) ^ 2 = (1e8 - (a:ℝ)) ^ 2 := by ring
      rw [h3, le_div_iff (by norm_num : (0:ℝ) < 2 * (2.5:ℝ) ^ 2)]
      nlinarith
    have hexp : Real.exp (-(((a : ℝ) - 1e8) ^ 2 / (2 * (2.5:ℝ) ^ 2))) ≤
        1e-13 := by
      have h1 := Real.add_one_le_exp (((a : ℝ) - 1e8) ^ 2 / (2 * (2.5:ℝ) ^ 2))
      rw [Real.exp_neg]
      have h2 : (0:ℝ) < 7e14 + 1 := by norm_num
      have h3 : (7e14 : ℝ) + 1 ≤
          Real.exp (((a : ℝ) - 1e8) ^ 2 / (2 * (2.5:ℝ) ^ 2)) := by
        linarith
      calc (Real.exp (((a : ℝ) - 1e8) ^ 2 / (2 * (2.5:ℝ) ^ 2)))⁻¹
          ≤ ((7e14 : ℝ) + 1)⁻¹ := by
            apply inv_le_inv_of_le h2 h3
        _ ≤ 1e-13 := by norm_num
    have hdec : (if 40 < a then Real.exp (-0.1 * ((a : ℝ) - 40)) else 1) ≤ 1 := by
      split
      · rename_i h40
        rw [Real.exp_le_one_iff]
        have : (40:ℝ) ≤ (a:ℝ) := by exact_mod_cast Nat.le_of_lt h40
        nlinarith
      · exact le_refl 1
    have hdec0 : (0:ℝ) ≤
        (if 40 < a then Real.exp (-0.1 * ((a : ℝ) - 40)) else 1) := by
      split
      · exact (Real.exp_pos _).le
      · norm_num
    dsimp only
    have hrw : (-((a : ℝ) - 1e8) ^ 2 / (2 * (2.5:ℝ) ^ 2)) =
        (-(((a : ℝ) - 1e8) ^ 2 / (2 * (2.5:ℝ) ^ 2))) := by ring
    calc (Real.exp (-((a : ℝ) - 1e8) ^ 2 / (2 * (2.5:ℝ) ^ 2)) + 0) *
          (if 40 < a then Real.exp (-0.1 * ((a : ℝ) - 40)) else 1)
        ≤ (Real.exp (-((a : ℝ) - 1e8) ^ 2 / (2 * (2.5:ℝ) ^ 2)) + 0) * 1 := by
          apply mul_le_mul_of_nonneg_left hdec
          positivity
      _ = Real.exp (-(((a : ℝ) - 1e8) ^ 2 / (2 * (2.5:ℝ) ^ 2))) := by
          rw [hrw]; ring
      _ ≤ 1e-13 := hexp
  · norm_num

lemma fertilityRawSum_far_peak :
    fertilityRawSum 1e8 (max 2.5 2.5) none < 1e-10 := by
  unfold fertilityRawSum
  calc ∑ a ∈ Finset.range numAges, fertilityRaw 1e8 (max 2.5 2.5) none a
      ≤ ∑ _a ∈ Finset.range numAges, (1e-13 : ℝ) :=
        Finset.sum_le_sum fun a ha =>
          fertilityRaw_far_peak_le (Finset.mem_range.mp ha)
    _ = (numAges : ℝ) * 1e-13 := by
        rw [Finset.sum_const, Finset.card_range, nsmul_eq_mul]
    _ < 1e-10 := by unfold numAges; norm_num

theorem division_guards_witness :
    (stepBirths baselineConfig zeroState = 0 ∧
      stepMeanParentAge baselineConfig zeroState =
        (getEffectiveParams baselineConfig).peakAge) ∧
    (stepWorking baselineConfig zeroState = 0 ∧
      stepDependencyRatio baselineConfig zeroState = 0) ∧
    (fertilityRawSum 1e8 (max 2.5 2.5) none < 1e-10 ∧
      ((getFertilitySchedule 1e8 2.5 none 2.1).schedule =
        fertilityRaw 1e8 (max 2.5 2.5) none ∧
      ∀ a, 0 ≤ (getFertilitySchedule 1e8 2.5 none 2.1).schedule a ∧
        (getFertilitySchedule 1e8 2.5 none 2.1).schedule a < 1e-10)) := by
  have hb : stepBirths baselineConfig zeroState = 0 := by
    unfold stepBirths zeroState
    simp
  have hw : stepWorking baselineConfig zeroState = 0 := by
    unfold stepWorking
    refine Finset.sum_eq_zero fun a ha => ?_
    exact stepNewDist_zeroState baselineConfig
      (by have := Finset.mem_Ico.mp ha; omega)
  exact ⟨⟨hb, division_guards.1 baselineConfig zeroState hb⟩,
    ⟨hw, division_guards.2.1 baselineConfig zeroState hw⟩,
    ⟨fertilityRawSum_far_peak,
      division_guards.2.2 1e8 2.5 none 2.1 fertilityRawSum_far_peak⟩⟩

/-- Population value of the history entry at a given index (0 when the
index is out of range, mirroring the optional-chaining access). -/
noncomputable def entryPopulation (h : List HistoryEntry) (i : ℕ) : ℝ :=
  match h[i]? with
  | some e => e.population
  | none => 0

/-- The realized growth rate of the source: compares the latest entry
with the entry at index `length - 10` and divides by the 10-year
window, returning 0 unless strictly more than 10 entries exist. -/
noncomputable def growthRate (h : List HistoryEntry) : ℝ :=
  if 10 < h.length then
    (entryPopulation h (h.length - 1) / entryPopulation h (h.length - 10) - 1)
      * 100 / 10
  else 0

/-- History entry with a given time and population (remaining fields
arbitrary but fixed), used to build concrete history logs. -/
noncomputable def mkEntry (t : ℕ) (p : ℝ) : HistoryEntry :=
  { time := t
    population := p
    births := 0
    deaths := 0
    meanParentAge := 0
    dependencyRatio := 0
    ageDistribution := fun _ => 0
    maleDistribution := fun _ => 0
    femaleDistribution := fun _ => 0
    lifeExpectancy := 75
    totalFertility := 2.1
    peakFertilityAge := 27
    fertilitySpread := 7
    sexRatioBirth := 0.488 }

/-- Concrete history log with 11 entries: population 100 at step 0 and
200 from step 1 on. -/
noncomputable def exHistory : List HistoryEntry :=
  [mkEntry 0 100, mkEntry 1 200, mkEntry 2 200, mkEntry 3 200,
   mkEntry 4 200, mkEntry 5 200, mkEntry 6 200, mkEntry 7 200,
   mkEntry 8 200, mkEntry 9 200, mkEntry 10 200]

/-- C6 counterexample: a history with 11 (hence at least 10) recorded
entries on which the code returns growth rate 0, while the ratio of the
latest population to the population 10 steps earlier, annualized over
the 10-step window, is 10 percent per year — so the claimed formula
does not describe the code. -/
theorem growth_rate_counterexample :
    10 ≤ exHistory.length ∧
    growthRate exHistory = 0 ∧
    (entryPopulation exHistory (exHistory.length - 1) /
      entryPopulation exHistory (exHistory.length - 1 - 10) - 1)
        * 100 / 10 = 10 := by
  refine ⟨by simp [exHistory], ?_, ?_⟩
  · unfold growthRate
    rw [if_pos (by simp [exHistory])]
    show (entryPopulation exHistory 10 / entryPopulation exHistory 1 - 1)
      * 100 / 10 = 0
    unfold entryPopulation exHistory mkEntry
    norm_num
  · show (entryPopulation exHistory 10 / entryPopulation exHistory 0 - 1)
      * 100 / 10 = 10
    unfold entryPopulation exHistory mkEntry
    norm_num

/-- C6 (amended): the realized growth rate compares the latest recorded
entry with the entry at index `length - 10` — which is 9 steps earlier
than the latest — still dividing by the 10-year window, and only when
strictly more than 10 entries exist; with 10 or fewer entries it is
0. -/
theorem growth_rate_amended (h : List HistoryEntry) :
    (10 < h.length →
      growthRate h =
        (entryPopulation h (h.length - 1) /
          entryPopulation h (h.length - 10) - 1) * 100 / 10) ∧
    (h.length ≤ 10 → growthRate h = 0) := by
  constructor
  · intro hlen
    unfold growthRate
    rw [if_pos hlen]
  · intro hlen
    unfold growthRate
    rw [if_neg (by omega)]

theorem growth_rate_amended_witness :
    (10 < exHistory.length ∧
      growthRate exHistory =
        (entryPopulation exHistory (exHistory.length - 1) /
          entryPopulation exHistory (exHistory.length - 10) - 1)
            * 100 / 10) ∧
    (([] : List HistoryEntry).length ≤ 10 ∧
      growthRate ([] : List HistoryEntry) = 0) :=
  ⟨⟨by simp [exHistory], (growth_rate_amended exHistory).1
      (by simp [exHistory])⟩,
    ⟨by simp, (growth_rate_amended ([] : List HistoryEntry)).2 (by simp)⟩⟩

lemma mortalityRaw_zero_75_false :
    mortalityRaw 0 75 false = 0.0154 + 0.00002 * Real.exp 0.275 := by
  unfold mortalityRaw
  norm_num

lemma mortalityRaw_zero_75_true :
    mortalityRaw 0 75 true = 0.0186 + 0.000023 * Real.exp 0.275 := by
  unfold mortalityRaw
  unfold MALE_INFANT_MULTIPLIER MALE_BACKGROUND_MULTIPLIER
    MALE_SENESCENT_MULTIPLIER
  norm_num
  ring

lemma exp_275_bounds : (1 : ℝ) ≤ Real.exp 0.275 ∧ Real.exp 0.275 ≤ 3 := by
  constructor
  · linarith [Real.add_one_le_exp (0.275 : ℝ)]
  · calc Real.exp 0.275 ≤ Real.exp 1 := Real.exp_le_exp.mpr (by norm_num)
      _ ≤ 3 := by linarith [Real.exp_one_lt_d9]

lemma getMortalityRate_zero_75_false :
    getMortalityRate 0 75 false = 0.0154 + 0.00002 * Real.exp 0.275 := by
  unfold getMortalityRate
  rw [mortalityRaw_zero_75_false]
  exact min_eq_left (by nlinarith [exp_275_bounds.2, exp_275_bounds.1])

lemma getMortalityRate_zero_75_true :
    getMortalityRate 0 75 true = 0.0186 + 0.000023 * Real.exp 0.275 := by
  unfold getMortalityRate
  rw [mortalityRaw_zero_75_true]
  exact min_eq_left (by nlinarith [exp_275_bounds.2, exp_275_bounds.1])

lemma simulateStep_total_one (c : Config) (s : PopState) :
    (simulateStep c s).total 1 =
      max 0 (s.total 0 *
        Real.exp (-(getMortalityRate 0 c.lifeExpectancy false))) := by
  show stepNewDist c s 1 = _
  unfold stepNewDist
  norm_num [numAges]

lemma simulateStep_male_one (c : Config) (s : PopState) :
    (simulateStep c s).male 1 =
      max 0 (s.male 0 *
        Real.exp (-(getMortalityRate 0 c.lifeExpectancy true))) := by
  show stepNewMale c s 1 = _
  unfold stepNewMale
  norm_num [numAges]

lemma simulateStep_female_one (c : Config) (s : PopState) :
    (simulateStep c s).female 1 =
      max 0 (s.female 0 *
        Real.exp (-(getMortalityRate 0 c.lifeExpectancy false))) := by
  show stepNewFemale c s 1 = _
  unfold stepNewFemale
  norm_num [numAges]

lemma initRawTotal_pos (c : Config) : 0 < initRawTotal c :=
  Finset.sum_pos (fun i _ => getSurvivalCurve_pos _ _ i)
    ⟨0, by simp [numAges]⟩

lemma initRawTotal_le (c : Config) : initRawTotal c ≤ 100 := by
  unfold initRawTotal
  calc ∑ a ∈ Finset.range numAges, getSurvivalCurve c.lifeExpectancy false a
      ≤ ∑ _a ∈ Finset.range numAges, (1:ℝ) :=
        Finset.sum_le_sum fun a _ => getSurvivalCurve_le_one _ _ a
    _ = 100 := by simp [numAges]

/-- C2 counterexample: from the baseline configuration, one simulation
step after initialization already breaks the sex-consistency invariant
at age 1 — the male and female cohorts sum to strictly less than the
total cohort, with a gap of at least 0.05 persons, far beyond floating
tolerance.  The total track survives age 0 under the female hazard
while the male track uses the strictly larger male hazard. -/
theorem sex_consistency_counterexample :
    (simulateStep baselineConfig (initState baselineConfig)).male 1 +
      (simulateStep baselineConfig (initState baselineConfig)).female 1 +
      0.05 ≤
    (simulateStep baselineConfig (initState baselineConfig)).total 1 := by
  rw [simulateStep_total_one, simulateStep_male_one, simulateStep_female_one]
  have hle : baselineConfig.lifeExpectancy = (75:ℝ) := rfl
  rw [hle]
  have htot0 : (initState baselineConfig).total 0 =
      10000 / initRawTotal baselineConfig := by
    show initDistribution baselineConfig 0 = _
    unfold initDistribution
    rw [if_pos (by unfold numAges; omega)]
    show getSurvivalCurve baselineConfig.lifeExpectancy false 0 *
      (baselineConfig.initialPopulation / initRawTotal baselineConfig) = _
    rw [show getSurvivalCurve baselineConfig.lifeExpectancy false 0 = 1
      from rfl]
    rw [show baselineConfig.initialPopulation = (10000:ℝ) from rfl]
    ring
  have hmale0 : (initState baselineConfig).male 0 =
      10000 / initRawTotal baselineConfig * 0.5 := by
    show initDistribution baselineConfig 0 * 0.5 = _
    rw [show initDistribution baselineConfig 0 =
      (initState baselineConfig).total 0 from rfl, htot0]
  have hfem0 : (initState baselineConfig).female 0 =
      10000 / initRawTotal baselineConfig * 0.5 := by
    show initDistribution baselineConfig 0 * 0.5 = _
    rw [show initDistribution baselineConfig 0 =
      (initState baselineConfig).total 0 from rfl, htot0]
  rw [htot0, hmale0, hfem0]
  set P : ℝ := 10000 / initRawTotal baselineConfig with hPdef
  set Ef : ℝ := Real.exp (-(getMortalityRate 0 75 false)) with hEfdef
  set Em : ℝ := Real.exp (-(getMortalityRate 0 75 true)) with hEmdef
  have hP : (100:ℝ) ≤ P := by
    rw [hPdef, le_div_iff (initRawTotal_pos baselineConfig)]
    linarith [initRawTotal_le baselineConfig]
  have hP0 : (0:ℝ) < P := by linarith
  have hEf0 : (0:ℝ) < Ef := Real.exp_pos _
  have hEm0 : (0:ℝ) < Em := Real.exp_pos _
  rw [max_eq_right (by positivity), max_eq_right (by positivity),
    max_eq_right (by positivity)]
  have hEf_ge : (0.4:ℝ) ≤ Ef := by
    rw [hEfdef]
    calc (0.4:ℝ) ≤ Real.exp (-0.6) := by
          linarith [Real.add_one_le_exp (-0.6 : ℝ)]
      _ ≤ Real.exp (-(getMortalityRate 0 75 false)) :=
          Real.exp_le_exp.mpr (by linarith [getMortalityRate_le 0 75 false])
  have hEm_eq : Em = Ef *
      Real.exp (-(getMortalityRate 0 75 true - getMortalityRate 0 75 false)) := by
    rw [hEmdef, hEfdef, ← Real.exp_add]
    congr 1
    ring
  have hdelta : (0.0032:ℝ) ≤
      getMortalityRate 0 75 true - getMortalityRate 0 75 false := by
    rw [getMortalityRate_zero_75_true, getMortalityRate_zero_75_false]
    nlinarith [exp_275_bounds.1]
  have hexpd : Real.exp
      (-(getMortalityRate 0 75 true - getMortalityRate 0 75 false)) ≤
        1 / 1.0032 := by
    have h1 : Real.exp
        (-(getMortalityRate 0 75 true - getMortalityRate 0 75 false)) ≤
          Real.exp (-0.0032) := Real.exp_le_exp.mpr (by linarith)
    have h2 : Real.exp (-(0.0032:ℝ)) ≤ 1 / 1.0032 := by
      rw [Real.exp_neg, one_div]
      exact inv_le_inv_of_le (by norm_num)
        (by linarith [Real.add_one_le_exp (0.0032 : ℝ)])
    linarith
  have hEm_le : Em ≤ Ef * (1 / 1.0032) := by
    rw [hEm_eq]
    exact mul_le_mul_of_nonneg_left hexpd hEf0.le
  have hgap : (0.00127:ℝ) ≤ Ef - Em := by
    have h1 : Ef - Em ≥ Ef * (1 - 1 / 1.0032) := by nlinarith
    nlinarith
  have hprod : (100:ℝ) * 0.00127 ≤ P * (Ef - Em) :=
    mul_le_mul hP hgap (by norm_num) hP0.le
  nlinarith

lemma exp_p008_lb : (1.0832 : ℝ) ≤ Real.exp (2/25) := by
  have h := Real.sum_le_exp_of_nonneg (by norm_num : (0:ℝ) ≤ 2/25) 3
  norm_num [Finset.sum_range_succ, Nat.factorial] at h
  linarith

lemma exp_p032_lb : (1.3766 : ℝ) ≤ Real.exp (8/25) := by
  have h := Real.sum_le_exp_of_nonneg (by norm_num : (0:ℝ) ≤ 8/25) 4
  norm_num [Finset.sum_range_succ, Nat.factorial] at h
  linarith

lemma exp_p072_lb : (2.054 : ℝ) ≤ Real.exp (18/25) := by
  have h := Real.sum_le_exp_of_nonneg (by norm_num : (0:ℝ) ≤ 18/25) 6
  norm_num [Finset.sum_range_succ, Nat.factorial] at h
  linarith

lemma exp_p128_lb : (3.589 : ℝ) ≤ Real.exp (32/25) := by
  have h := Real.sum_le_exp_of_nonneg (by norm_num : (0:ℝ) ≤ 32/25) 6
  norm_num [Finset.sum_range_succ, Nat.factorial] at h
  linarith

lemma exp_p2_lb : (7.3809 : ℝ) ≤ Real.exp (2) := by
  have h := Real.sum_le_exp_of_nonneg (by norm_num : (0:ℝ) ≤ 2) 8
  norm_num [Finset.sum_range_succ, Nat.factorial] at h
  linarith

lemma exp_p288_lb : (17.76 : ℝ) ≤ Real.exp (72/25) := by
  have h := Real.sum_le_exp_of_nonneg (by norm_num : (0:ℝ) ≤ 72/25) 9
  norm_num [Finset.sum_range_succ, Nat.factorial] at h
  linarith

lemma exp_p392_lb : (50 : ℝ) ≤ Real.exp (98/25) := by
  have h := Real.sum_le_exp_of_nonneg (by norm_num : (0:ℝ) ≤ 98/25) 10
  norm_num [Finset.sum_range_succ, Nat.factorial] at h
  linarith

lemma exp_p5_lb : (147 : ℝ) ≤ Real.exp (5) := by
  have h := Real.sum_le_exp_of_nonneg (by norm_num : (0:ℝ) ≤ 5) 12
  norm_num [Finset.sum_range_succ, Nat.factorial] at h
  linarith

lemma exp_p6_lb : (395 : ℝ) ≤ Real.exp (6) := by
  have h := Real.sum_le_exp_of_nonneg (by norm_num : (0:ℝ) ≤ 6) 12
  norm_num [Finset.sum_range_succ, Nat.factorial] at h
  linarith

lemma exp_p8_lb : (2400 : ℝ) ≤ Real.exp (8) := by
  have h := Real.sum_le_exp_of_nonneg (by norm_num : (0:ℝ) ≤ 8) 11
  norm_num [Finset.sum_range_succ, Nat.factorial] at h
  linarith

lemma exp_p008_ub : Real.exp (2/25) ≤ 1.0833 := by
  have h := Real.exp_bound' (by norm_num : (0:ℝ) ≤ 2/25) (by norm_num) (n := 4) (by norm_num)
  norm_num [Finset.sum_range_succ, Nat.factorial] at h
  linarith

lemma exp_p032_ub : Real.exp (8/25) ≤ 1.3772 := by
  have h := Real.exp_bound' (by norm_num : (0:ℝ) ≤ 8/25) (by norm_num) (n := 5) (by norm_num)
  norm_num [Finset.sum_range_succ, Nat.factorial] at h
  linarith

lemma exp_p072_ub : Real.exp (18/25) ≤ 2.0545 := by
  have h := Real.exp_bound' (by norm_num : (0:ℝ) ≤ 18/25) (by norm_num) (n := 6) (by norm_num)
  norm_num [Finset.sum_range_succ, Nat.factorial] at h
  linarith

lemma exp_p064_ub : Real.exp (16/25) ≤ 1.8965 := by
  have h := Real.exp_bound' (by norm_num : (0:ℝ) ≤ 16/25) (by norm_num) (n := 6) (by norm_num)
  norm_num [Finset.sum_range_succ, Nat.factorial] at h
  linarith

lemma expm008_ub : Real.exp (-(2/25)) ≤ 0.9232 := by
  rw [Real.exp_neg]
  calc (Real.exp (2/25))⁻¹ ≤ ((1.0832 : ℝ))⁻¹ :=
        inv_le_inv_of_le (by norm_num) exp_p008_lb
    _ ≤ 0.9232 := by norm_num

lemma expm032_ub : Real.exp (-(8/25)) ≤ 0.7265 := by
  rw [Real.exp_neg]
  calc (Real.exp (8/25))⁻¹ ≤ ((1.3766 : ℝ))⁻¹ :=
        inv_le_inv_of_le (by norm_num) exp_p032_lb
    _ ≤ 0.7265 := by norm_num

lemma expm072_ub : Real.exp (-(18/25)) ≤ 0.4869 := by
  rw [Real.exp_neg]
  calc (Real.exp (18/25))⁻¹ ≤ ((2.054 : ℝ))⁻¹ :=
        inv_le_inv_of_le (by norm_num) exp_p072_lb
    _ ≤ 0.4869 := by norm_num

lemma expm128_ub : Real.exp (-(32/25)) ≤ 0.2787 := by
  rw [Real.exp_neg]
  calc (Real.exp (32/25))⁻¹ ≤ ((3.589 : ℝ))⁻¹ :=
        inv_le_inv_of_le (by norm_num) exp_p128_lb
    _ ≤ 0.2787 := by norm_num

lemma expm2_ub : Real.exp (-(2)) ≤ 0.1355 := by
  rw [Real.exp_neg]
  calc (Real.exp (2))⁻¹ ≤ ((7.3809 : ℝ))⁻¹ :=
        inv_le_inv_of_le (by norm_num) exp_p2_lb
    _ ≤ 0.1355 := by norm_num

lemma expm288_ub : Real.exp (-(72/25)) ≤ 0.0564 := by
  rw [Real.exp_neg]
  calc (Real.exp (72/25))⁻¹ ≤ ((17.76 : ℝ))⁻¹ :=
        inv_le_inv_of_le (by norm_num) exp_p288_lb
    _ ≤ 0.0564 := by norm_num

lemma expm392_ub : Real.exp (-(98/25)) ≤ 0.02 := by
  rw [Real.exp_neg]
  calc (Real.exp (98/25))⁻¹ ≤ ((50 : ℝ))⁻¹ :=
        inv_le_inv_of_le (by norm_num) exp_p392_lb
    _ ≤ 0.02 := by norm_num

lemma expm512_ub : Real.exp (-(128/25)) ≤ 0.0069 := by
  calc Real.exp (-(128/25)) ≤ Real.exp (-(5)) :=
        Real.exp_le_exp.mpr (by norm_num)
    _ = (Real.exp (5))⁻¹ := Real.exp_neg _
    _ ≤ ((147 : ℝ))⁻¹ := inv_le_inv_of_le (by norm_num) exp_p5_lb
    _ ≤ 0.0069 := by norm_num

lemma expm648_ub : Real.exp (-(162/25)) ≤ 0.0026 := by
  calc Real.exp (-(162/25)) ≤ Real.exp (-(6)) :=
        Real.exp_le_exp.mpr (by norm_num)
    _ = (Real.exp (6))⁻¹ := Real.exp_neg _
    _ ≤ ((395 : ℝ))⁻¹ := inv_le_inv_of_le (by norm_num) exp_p6_lb
    _ ≤ 0.0026 := by norm_num

lemma expm8_ub : Real.exp (-8) ≤ 0.00042 := by
  rw [Real.exp_neg]
  calc (Real.exp (8:ℝ))⁻¹ ≤ ((2400 : ℝ))⁻¹ :=
        inv_le_inv_of_le (by norm_num) exp_p8_lb
    _ ≤ 0.00042 := by norm_num

lemma expm_tiny0_ub : Real.exp (-(242/25)) ≤ 0.00042 :=
  le_trans (Real.exp_le_exp.mpr (by norm_num)) expm8_ub

lemma expm_tiny1_ub : Real.exp (-(288/25)) ≤ 0.00042 :=
  le_trans (Real.exp_le_exp.mpr (by norm_num)) expm8_ub

lemma expm_tiny2_ub : Real.exp (-(338/25)) ≤ 0.00042 :=
  le_trans (Real.exp_le_exp.mpr (by norm_num)) expm8_ub

lemma expm_tiny3_ub : Real.exp (-(392/25)) ≤ 0.00042 :=
  le_trans (Real.exp_le_exp.mpr (by norm_num)) expm8_ub

lemma expm_tiny4_ub : Real.exp (-(18)) ≤ 0.00042 :=
  le_trans (Real.exp_le_exp.mpr (by norm_num)) expm8_ub

lemma expm_tiny5_ub : Real.exp (-(789/50)) ≤ 0.00042 :=
  le_trans (Real.exp_le_exp.mpr (by norm_num)) expm8_ub

lemma expm_tiny6_ub : Real.exp (-(91/5)) ≤ 0.00042 :=
  le_trans (Real.exp_le_exp.mpr (by norm_num)) expm8_ub

lemma expm_tiny7_ub : Real.exp (-(1039/50)) ≤ 0.00042 :=
  le_trans (Real.exp_le_exp.mpr (by norm_num)) expm8_ub

lemma expm_tiny8_ub : Real.exp (-(588/25)) ≤ 0.00042 :=
  le_trans (Real.exp_le_exp.mpr (by norm_num)) expm8_ub

lemma expm_tiny9_ub : Real.exp (-(1321/50)) ≤ 0.00042 :=
  le_trans (Real.exp_le_exp.mpr (by norm_num)) expm8_ub

lemma expm_tiny10_ub : Real.exp (-(737/25)) ≤ 0.00042 :=
  le_trans (Real.exp_le_exp.mpr (by norm_num)) expm8_ub

lemma expm_tiny11_ub : Real.exp (-(327/10)) ≤ 0.00042 :=
  le_trans (Real.exp_le_exp.mpr (by norm_num)) expm8_ub

lemma expm_tiny12_ub : Real.exp (-(902/25)) ≤ 0.00042 :=
  le_trans (Real.exp_le_exp.mpr (by norm_num)) expm8_ub

lemma expm_tiny13_ub : Real.exp (-(1981/50)) ≤ 0.00042 :=
  le_trans (Real.exp_le_exp.mpr (by norm_num)) expm8_ub

lemma expm_tiny14_ub : Real.exp (-(1083/25)) ≤ 0.00042 :=
  le_trans (Real.exp_le_exp.mpr (by norm_num)) expm8_ub

lemma expm_tiny15_ub : Real.exp (-(2359/50)) ≤ 0.00042 :=
  le_trans (Real.exp_le_exp.mpr (by norm_num)) expm8_ub

lemma expm_tiny16_ub : Real.exp (-(256/5)) ≤ 0.00042 :=
  le_trans (Real.exp_le_exp.mpr (by norm_num)) expm8_ub

lemma expm_tiny17_ub : Real.exp (-(2769/50)) ≤ 0.00042 :=
  le_trans (Real.exp_le_exp.mpr (by norm_num)) expm8_ub

lemma expm_tiny18_ub : Real.exp (-(1493/25)) ≤ 0.00042 :=
  le_trans (Real.exp_le_exp.mpr (by norm_num)) expm8_ub

lemma expm008_lb : (0.9231 : ℝ) ≤ Real.exp (-(2/25)) := by
  rw [Real.exp_neg]
  calc (0.9231 : ℝ) ≤ ((1.0833 : ℝ))⁻¹ := by norm_num
    _ ≤ (Real.exp (2/25))⁻¹ := inv_le_inv_of_le (Real.exp_pos _) exp_p008_ub

lemma expm032_lb : (0.7261 : ℝ) ≤ Real.exp (-(8/25)) := by
  rw [Real.exp_neg]
  calc (0.7261 : ℝ) ≤ ((1.3772 : ℝ))⁻¹ := by norm_num
    _ ≤ (Real.exp (8/25))⁻¹ := inv_le_inv_of_le (Real.exp_pos _) exp_p032_ub

lemma expm072_lb : (0.4867 : ℝ) ≤ Real.exp (-(18/25)) := by
  rw [Real.exp_neg]
  calc (0.4867 : ℝ) ≤ ((2.0545 : ℝ))⁻¹ := by norm_num
    _ ≤ (Real.exp (18/25))⁻¹ := inv_le_inv_of_le (Real.exp_pos _) exp_p072_ub

lemma exp_p128_ub : Real.exp (32/25) ≤ 3.5968 := by
  have h : Real.exp (32/25 : ℝ) = Real.exp (16/25) * Real.exp (16/25) := by
    rw [← Real.exp_add]
    norm_num
  rw [h]
  nlinarith [exp_p064_ub, Real.exp_pos (16/25 : ℝ)]

lemma expm128_lb : (0.278 : ℝ) ≤ Real.exp (-(32/25)) := by
  rw [Real.exp_neg]
  calc (0.278 : ℝ) ≤ ((3.5968 : ℝ))⁻¹ := by norm_num
    _ ≤ (Real.exp (32/25))⁻¹ := inv_le_inv_of_le (Real.exp_pos _) exp_p128_ub

lemma exp_p2_ub : Real.exp 2 ≤ 7.3891 := by
  have h : Real.exp (2:ℝ) = Real.exp 1 * Real.exp 1 := by
    rw [← Real.exp_add]
    norm_num
  rw [h]
  nlinarith [Real.exp_one_lt_d9, Real.exp_pos 1]

lemma expm2_lb : (0.1353 : ℝ) ≤ Real.exp (-2) := by
  rw [Real.exp_neg]
  calc (0.1353 : ℝ) ≤ ((7.3891 : ℝ))⁻¹ := by norm_num
    _ ≤ (Real.exp 2)⁻¹ := inv_le_inv_of_le (Real.exp_pos _) exp_p2_ub

/-- Explicit expansion of the raw fertility shape sum for the inputs
peak 27, spread 2.5, no second peak. -/
lemma fertilityRawSum_baseline_expand :
    fertilityRawSum 27 (max 2.5 2.5) none =
      Real.exp (-18) + Real.exp (-(392/25)) + Real.exp (-(338/25)) +
      Real.exp (-(288/25)) + Real.exp (-(242/25)) + Real.exp (-8) +
      Real.exp (-(162/25)) + Real.exp (-(128/25)) + Real.exp (-(98/25)) +
      Real.exp (-(72/25)) + Real.exp (-2) + Real.exp (-(32/25)) +
      Real.exp (-(18/25)) + Real.exp (-(8/25)) + Real.exp (-(2/25)) + 1 +
      Real.exp (-(2/25)) + Real.exp (-(8/25)) + Real.exp (-(18/25)) +
      Real.exp (-(32/25)) + Real.exp (-2) + Real.exp (-(72/25)) +
      Real.exp (-(98/25)) + Real.exp (-(128/25)) + Real.exp (-(162/25)) +
      Real.exp (-8) + Real.exp (-(242/25)) + Real.exp (-(288/25)) +
      Real.exp (-(338/25)) + Real.exp (-(789/50)) + Real.exp (-(91/5)) +
      Real.exp (-(1039/50)) + Real.exp (-(588/25)) + Real.exp (-(1321/50)) +
      Real.exp (-(737/25)) + Real.exp (-(327/10)) + Real.exp (-(902/25)) +
      Real.exp (-(1981/50)) + Real.exp (-(1083/25)) + Real.exp (-(2359/50)) +
      Real.exp (-(256/5)) + Real.exp (-(2769/50)) + Real.exp (-(1493/25)) := by
  rw [max_self]
  unfold fertilityRawSum fertilityRaw numAges
  norm_num [Finset.sum_range_succ, ← Real.exp_add]

lemma fertilityRawSum_baseline_lo :
    (6.09 : ℝ) ≤ fertilityRawSum 27 (max 2.5 2.5) none := by
  rw [fertilityRawSum_baseline_expand]
  linarith [expm008_lb, expm032_lb, expm072_lb, expm128_lb, expm2_lb,
    (Real.exp_pos (-(72/25) : ℝ)).le,
    (Real.exp_pos (-(98/25) : ℝ)).le,
    (Real.exp_pos (-(128/25) : ℝ)).le,
    (Real.exp_pos (-(162/25) : ℝ)).le,
    (Real.exp_pos (-(8) : ℝ)).le,
    (Real.exp_pos (-(242/25) : ℝ)).le,
    (Real.exp_pos (-(288/25) : ℝ)).le,
    (Real.exp_pos (-(338/25) : ℝ)).le,
    (Real.exp_pos (-(392/25) : ℝ)).le,
    (Real.exp_pos (-(18) : ℝ)).le,
    (Real.exp_pos (-(789/50) : ℝ)).le,
    (Real.exp_pos (-(91/5) : ℝ)).le,
    (Real.exp_pos (-(1039/50) : ℝ)).le,
    (Real.exp_pos (-(588/25) : ℝ)).le,
    (Real.exp_pos (-(1321/50) : ℝ)).le,
    (Real.exp_pos (-(737/25) : ℝ)).le,
    (Real.exp_pos (-(327/10) : ℝ)).le,
    (Real.exp_pos (-(902/25) : ℝ)).le,
    (Real.exp_pos (-(1981/50) : ℝ)).le,
    (Real.exp_pos (-(1083/25) : ℝ)).le,
    (Real.exp_pos (-(2359/50) : ℝ)).le,
    (Real.exp_pos (-(256/5) : ℝ)).le,
    (Real.exp_pos (-(2769/50) : ℝ)).le,
    (Real.exp_pos (-(1493/25) : ℝ)).le]

lemma fertilityRawSum_baseline_hi :
    fertilityRawSum 27 (max 2.5 2.5) none ≤ 6.29 := by
  rw [fertilityRawSum_baseline_expand]
  linarith [expm008_ub, expm032_ub, expm072_ub, expm128_ub, expm2_ub,
    expm288_ub, expm392_ub, expm512_ub, expm648_ub, expm8_ub,
    expm_tiny0_ub,
    expm_tiny1_ub,
    expm_tiny2_ub,
    expm_tiny3_ub,
    expm_tiny4_ub,
    expm_tiny5_ub,
    expm_tiny6_ub,
    expm_tiny7_ub,
    expm_tiny8_ub,
    expm_tiny9_ub,
    expm_tiny10_ub,
    expm_tiny11_ub,
    expm_tiny12_ub,
    expm_tiny13_ub,
    expm_tiny14_ub,
    expm_tiny15_ub,
    expm_tiny16_ub,
    expm_tiny17_ub,
    expm_tiny18_ub]

lemma fertilityRaw_baseline_27 : fertilityRaw 27 (max 2.5 2.5) none 27 = 1 := by
  rw [max_self]
  unfold fertilityRaw
  norm_num

lemma fertilityRaw_baseline_ne27 {a : ℕ} (ha : a ≠ 27) :
    fertilityRaw 27 (max 2.5 2.5) none a ≤ Real.exp (-(2/25)) := by
  rw [max_self]
  unfold fertilityRaw
  split
  · rename_i hw
    have hsq : (1:ℝ) ≤ ((a:ℝ) - 27) ^ 2 := by
      rcases Nat.lt_or_ge a 27 with h | h
      · have h26 : a ≤ 26 := by omega
        have : (a:ℝ) ≤ 26 := by exact_mod_cast h26
        nlinarith
      · have h28 : 28 ≤ a := by omega
        have : (28:ℝ) ≤ (a:ℝ) := by exact_mod_cast h28
        nlinarith
    have hprim : Real.exp (-((a:ℝ) - 27) ^ 2 / (2 * (2.5:ℝ) ^ 2)) ≤
        Real.exp (-(2/25)) := by
      apply Real.exp_le_exp.mpr
      rw [div_le_iff (by norm_num : (0:ℝ) < 2 * (2.5:ℝ) ^ 2)]
      linarith
    have hdec : (if 40 < a then Real.exp (-0.1 * ((a : ℝ) - 40)) else 1) ≤ 1 := by
      split
      · rename_i h40
        rw [Real.exp_le_one_iff]
        have : (40:ℝ) ≤ (a:ℝ) := by exact_mod_cast Nat.le_of_lt h40
        nlinarith
      · exact le_refl 1
    dsimp only
    calc (Real.exp (-((a : ℝ) - 27) ^ 2 / (2 * (2.5:ℝ) ^ 2)) + 0) *
          (if 40 < a then Real.exp (-0.1 * ((a : ℝ) - 40)) else 1)
        ≤ (Real.exp (-((a : ℝ) - 27) ^ 2 / (2 * (2.5:ℝ) ^ 2)) + 0) * 1 := by
          apply mul_le_mul_of_nonneg_left hdec
          positivity
      _ = Real.exp (-((a : ℝ) - 27) ^ 2 / (2 * (2.5:ℝ) ^ 2)) := by ring
      _ ≤ Real.exp (-(2/25)) := hprim
  · exact (Real.exp_pos _).le

/-- C3 counterexample: with peak age 27, spread 2.5 and target TFR 7,
the normalized schedule exceeds `MAX_ASFR` at age 27 (the per-age
ceiling binds and the value is clamped), yet the capped sum stays above
99% of the target, so the code leaves `biologicallyCapped` at `false` —
refuting the claim that the flag is true whenever the ceiling binds. -/
theorem fertility_capped_flag_counterexample :
    MAX_ASFR < fertilityNormalized 27 (max 2.5 2.5) none 7 27 ∧
    (getFertilitySchedule 27 2.5 none 7).biologicallyCapped = some false := by
  have hlo := fertilityRawSum_baseline_lo
  have hhi := fertilityRawSum_baseline_hi
  have hSpos : (0:ℝ) < fertilityRawSum 27 (max 2.5 2.5) none := by linarith
  have hSne : fertilityRawSum 27 (max 2.5 2.5) none ≠ 0 := ne_of_gt hSpos
  have hnorm27 : fertilityNormalized 27 (max 2.5 2.5) none 7 27 =
      7 / fertilityRawSum 27 (max 2.5 2.5) none := by
    unfold fertilityNormalized
    rw [fertilityRaw_baseline_27]
    ring
  have hbind : MAX_ASFR < fertilityNormalized 27 (max 2.5 2.5) none 7 27 := by
    rw [hnorm27]
    unfold MAX_ASFR
    rw [lt_div_iff hSpos]
    nlinarith
  refine ⟨hbind, ?_⟩
  have hnot_small : ¬ fertilityRawSum 27 (max 2.5 2.5) none < 1e-10 := by
    intro hcon
    linarith
  rw [getFertilitySchedule_main_path 27 2.5 none 7 hnot_small]
  have hother : ∀ a ∈ (Finset.range numAges).erase 27,
      fertilityCapped 27 (max 2.5 2.5) none 7 a =
        fertilityNormalized 27 (max 2.5 2.5) none 7 a := by
    intro a ha
    have hane : a ≠ 27 := (Finset.mem_erase.mp ha).1
    apply min_eq_left
    have hraw := fertilityRaw_baseline_ne27 hane
    have hub := expm008_ub
    have hrnn := fertilityRaw_nonneg 27 (max 2.5 2.5) none a
    unfold fertilityNormalized MAX_ASFR
    rw [div_mul_eq_mul_div, div_le_iff hSpos]
    nlinarith
  have hmem : (27:ℕ) ∈ Finset.range numAges := by
    unfold numAges
    simp
  have hcap27 : fertilityCapped 27 (max 2.5 2.5) none 7 27 = MAX_ASFR := by
    unfold fertilityCapped
    exact min_eq_right (le_of_lt hbind)
  have hT : fertilityTotalCapped 27 (max 2.5 2.5) none 7 =
      MAX_ASFR + (7 - 7 / fertilityRawSum 27 (max 2.5 2.5) none) := by
    unfold fertilityTotalCapped
    rw [← Finset.add_sum_erase _ _ hmem, Finset.sum_congr rfl hother,
      Finset.sum_erase_eq_sub hmem,
      fertilityNormalized_sum 27 (max 2.5 2.5) none 7 hSne, hcap27, hnorm27]
  have hTnot : ¬ (fertilityTotalCapped 27 (max 2.5 2.5) none 7 < 7 * 0.99) := by
    rw [hT]
    unfold MAX_ASFR
    intro hcon
    have h7S : 7 / fertilityRawSum 27 (max 2.5 2.5) none ≤ 7 / 6.09 :=
      div_le_div_of_nonneg_left (by norm_num) (by norm_num) hlo
    norm_num at h7S hcon
    linarith
  show some (decide (fertilityTotalCapped 27 (max 2.5 2.5) none 7 <
    7 * 0.99)) = some false
  rw [decide_eq_false hTnot]

lemma fertilityRedistributed_eq_capped (peak sigma : ℝ) (sp : Option ℝ)
    (tfr : ℝ)
    (h : ¬ fertilityTotalCapped peak sigma sp tfr < tfr * 0.99) (a : ℕ) :
    fertilityRedistributed peak sigma sp tfr a =
      fertilityCapped peak sigma sp tfr a := by
  unfold fertilityRedistributed
  dsimp only
  rw [if_neg fun hc => h hc.1]

/-- C3 (amended): on the normalization path with a positive target TFR,
(a) if no age's normalized value exceeds `MAX_ASFR` the returned
schedule sums exactly to the target and the capped flag is false; and
(b) whenever the per-age ceiling binds at some age, the capped sum
falls strictly below the target, the flag is raised exactly when the
capped sum drops below 99% of the target (not whenever the ceiling
binds), the attached `effectiveTFR` never exceeds the target, and when
the ceiling binds with the flag left false the `effectiveTFR` is
strictly below the target. -/
theorem fertility_normalization_spec (peak spreadVal : ℝ) (sp : Option ℝ)
    (tfr : ℝ) (htfr : 0 < tfr)
    (hS : ¬ fertilityRawSum peak (max spreadVal 2.5) sp < 1e-10) :
    ((∀ a, fertilityNormalized peak (max spreadVal 2.5) sp tfr a ≤ MAX_ASFR) →
      (∑ a ∈ Finset.range numAges,
        (getFertilitySchedule peak spreadVal sp tfr).schedule a) = tfr ∧
      (getFertilitySchedule peak spreadVal sp tfr).biologicallyCapped =
        some false) ∧
    ((∃ a, MAX_ASFR < fertilityNormalized peak (max spreadVal 2.5) sp tfr a) →
      fertilityTotalCapped peak (max spreadVal 2.5) sp tfr < tfr ∧
      ((getFertilitySchedule peak spreadVal sp tfr).biologicallyCapped =
          some true ↔
        fertilityTotalCapped peak (max spreadVal 2.5) sp tfr < tfr * 0.99) ∧
      (∀ v, (getFertilitySchedule peak spreadVal sp tfr).effectiveTFR =
          some v → v ≤ tfr) ∧
      ((getFertilitySchedule peak spreadVal sp tfr).biologicallyCapped =
          some false →
        ∀ v, (getFertilitySchedule peak spreadVal sp tfr).effectiveTFR =
          some v → v < tfr)) := by
  have hSne : fertilityRawSum peak (max spreadVal 2.5) sp ≠ 0 := by
    intro h0
    rw [h0] at hS
    norm_num at hS
  rw [getFertilitySchedule_main_path peak spreadVal sp tfr hS]
  constructor
  · intro hcap
    have hcapeq : ∀ a ∈ Finset.range numAges,
        fertilityCapped peak (max spreadVal 2.5) sp tfr a =
          fertilityNormalized peak (max spreadVal 2.5) sp tfr a :=
      fun a _ => min_eq_left (hcap a)
    have hTC : fertilityTotalCapped peak (max spreadVal 2.5) sp tfr = tfr := by
      unfold fertilityTotalCapped
      rw [Finset.sum_congr rfl hcapeq]
      exact fertilityNormalized_sum peak (max spreadVal 2.5) sp tfr hSne
    have hnc : ¬ fertilityTotalCapped peak (max spreadVal 2.5) sp tfr <
        tfr * 0.99 := by
      rw [hTC]
      intro hcon
      nlinarith
    constructor
    · show (∑ a ∈ Finset.range numAges,
        fertilityRedistributed peak (max spreadVal 2.5) sp tfr a) = tfr
      rw [Finset.sum_congr rfl fun a _ =>
        fertilityRedistributed_eq_capped peak (max spreadVal 2.5) sp tfr hnc a]
      rw [Finset.sum_congr rfl hcapeq]
      exact fertilityNormalized_sum peak (max spreadVal 2.5) sp tfr hSne
    · show some (decide (fertilityTotalCapped peak (max spreadVal 2.5) sp tfr <
        tfr * 0.99)) = some false
      rw [decide_eq_false hnc]
  · rintro ⟨a0, ha0⟩
    have ha0mem : a0 ∈ Finset.range numAges := by
      by_contra hmem
      have ha0big : 55 ≤ a0 := by
        simp only [Finset.mem_range] at hmem
        unfold numAges at hmem
        omega
      have : fertilityNormalized peak (max spreadVal 2.5) sp tfr a0 = 0 := by
        unfold fertilityNormalized
        rw [fertilityRaw_eq_zero peak (max spreadVal 2.5) sp (Or.inr ha0big)]
        ring
      rw [this] at ha0
      unfold MAX_ASFR at ha0
      norm_num at ha0
    have hTlt : fertilityTotalCapped peak (max spreadVal 2.5) sp tfr < tfr := by
      unfold fertilityTotalCapped
      calc ∑ a ∈ Finset.range numAges,
            fertilityCapped peak (max spreadVal 2.5) sp tfr a
          < ∑ a ∈ Finset.range numAges,
              fertilityNormalized peak (max spreadVal 2.5) sp tfr a := by
            refine Finset.sum_lt_sum (fun i _ => min_le_left _ _)
              ⟨a0, ha0mem, ?_⟩
            unfold fertilityCapped
            rw [min_eq_right (le_of_lt ha0)]
            exact ha0
        _ = tfr := fertilityNormalized_sum peak (max spreadVal 2.5) sp tfr hSne
    refine ⟨hTlt, ?_, ?_, ?_⟩
    · show some (decide (fertilityTotalCapped peak (max spreadVal 2.5) sp tfr <
        tfr * 0.99)) = some true ↔ _
      constructor
      · intro h
        have := Option.some.inj h
        exact of_decide_eq_true this
      · intro h
        rw [decide_eq_true h]
    · intro v hv
      have hveq := Option.some.inj hv
      rw [← hveq]
      exact fertilityRedistributed_sum_le peak (max spreadVal 2.5) sp
        htfr.le hSne
    · intro hflag v hv
      have hdec := Option.some.inj hflag
      have hnc : ¬ fertilityTotalCapped peak (max spreadVal 2.5) sp tfr <
          tfr * 0.99 := of_decide_eq_false hdec
      have hveq := Option.some.inj hv
      rw [← hveq]
      rw [Finset.sum_congr rfl fun a _ =>
        fertilityRedistributed_eq_capped peak (max spreadVal 2.5) sp tfr hnc a]
      exact hTlt

lemma fertilityRawSum_spread7_ge_one :
    (1:ℝ) ≤ fertilityRawSum 27 (max 7 2.5) none := by
  have h27 : fertilityRaw 27 (max 7 2.5) none 27 = 1 := by
    rw [show max (7:ℝ) 2.5 = 7 by norm_num]
    unfold fertilityRaw
    norm_num
  calc (1:ℝ) = fertilityRaw 27 (max 7 2.5) none 27 := h27.symm
    _ ≤ fertilityRawSum 27 (max 7 2.5) none := fertilityRaw_le_sum _ _ _ 27

theorem fertility_normalization_spec_witness :
    (0:ℝ) < 2.1 ∧
    (¬ fertilityRawSum 27 (max 7 2.5) none < 1e-10) ∧
    (((∀ a, fertilityNormalized 27 (max 7 2.5) none 2.1 a ≤ MAX_ASFR) →
      (∑ a ∈ Finset.range numAges,
        (getFertilitySchedule 27 7 none 2.1).schedule a) = 2.1 ∧
      (getFertilitySchedule 27 7 none 2.1).biologicallyCapped =
        some false) ∧
    ((∃ a, MAX_ASFR < fertilityNormalized 27 (max 7 2.5) none 2.1 a) →
      fertilityTotalCapped 27 (max 7 2.5) none 2.1 < 2.1 ∧
      ((getFertilitySchedule 27 7 none 2.1).biologicallyCapped =
          some true ↔
        fertilityTotalCapped 27 (max 7 2.5) none 2.1 < 2.1 * 0.99) ∧
      (∀ v, (getFertilitySchedule 27 7 none 2.1).effectiveTFR =
          some v → v ≤ 2.1) ∧
      ((getFertilitySchedule 27 7 none 2.1).biologicallyCapped =
          some false →
        ∀ v, (getFertilitySchedule 27 7 none 2.1).effectiveTFR =
          some v → v < 2.1))) := by
  have hns : ¬ fertilityRawSum 27 (max 7 2.5) none < 1e-10 := by
    have h := fertilityRawSum_spread7_ge_one
    intro hcon
    linarith
  exact ⟨by norm_num, hns,
    fertility_normalization_spec 27 7 none 2.1 (by norm_num) hns⟩

end ReproAge
